import Mathlib

/-!
Verification development for the capital-claims zip2 API.

The repository contains several variants of the claim-metrics endpoint:

* `part_000` — the unfiltered pg cascade: `summarize` / `handler` with the
  sample-size gate applied to the raw fetched row count and nearest-rank
  style percentile indexing (`idx`).
* `part_001` (first half) — the filtered pg cascade: `filterRows`,
  `runQuery`, and a `summarize` whose `p75` guard indexes into the
  `dollars` function object.
* `part_002` and friends — the Supabase zip-only variants with the
  linearly interpolated percentile `pct`, per-year trend and wRVU ratios.
* `src/pages/api/claim-metrics.ts` (first handler) — the paginated
  variant whose scope loop skips a scope on a query error.

JavaScript numbers are modelled as `ℚ`; a non-finite / missing amount is
modelled as `none : Option ℚ`.  The relational store is modelled as the
results of the individual queries a handler performs, each an
`Except String _` (an `Except.error` models a thrown/failed query).
-/

set_option maxRecDepth 8000

namespace CapClaims

/-- JS `Math.round`: rounds ties toward positive infinity,
`Math.round x = ⌊x + 0.5⌋` for every finite `x`. -/
def jsRound (q : ℚ) : ℤ := ⌊q + 1/2⌋

/-- Model of `dollars(n){ return Math.round(Number(n||0)); }` applied to a
finite number (`n || 0` maps `0` to `0`, which rounds to `0` anyway). -/
def dollars (q : ℚ) : ℤ := jsRound q

/-- Model of `dollars` applied to a possibly non-finite value: `NaN || 0`
and `undefined || 0` evaluate to `0`, so a `none` argument yields `0`. -/
def dollarsOpt (x : Option ℚ) : ℤ := jsRound (x.getD 0)

/-- Modelled from the spec: rounding to the nearest integer with ties
rounded half away from zero (the rounding rule the spec prescribes for
the displayed mean). -/
def specRoundHalfAwayFromZero (q : ℚ) : ℤ :=
  if 0 ≤ q then ⌊q + 1/2⌋ else -⌊-q + 1/2⌋

/-- A fetched claim row: `paid_amt` (`none` models a non-finite or missing
amount), `dos_year` (`none` models a non-numeric year). -/
structure Row where
  paid_amt : Option ℚ
  dos_year : Option ℤ
  deriving DecidableEq, Repr

/-- Model of `pct(sorted, p)` from the interpolated variants
(`part_001` second half, `part_002`, `claim-metrics.ts` second handler):
`null` for an empty list, clamped at the endpoints, otherwise linear
interpolation between the floor and ceiling neighbors of the index
`(length - 1) * p`. -/
def pct (sorted : List ℚ) (p : ℚ) : Option ℚ :=
  if sorted.length = 0 then none
  else if p ≤ 0 then some (sorted.getD 0 0)
  else if 1 ≤ p then some (sorted.getD (sorted.length - 1) 0)
  else
    let i : ℚ := ((sorted.length - 1 : ℕ) : ℚ) * p
    let lo : ℤ := ⌊i⌋
    let hi : ℤ := ⌈i⌉
    if lo = hi then some (sorted.getD lo.toNat 0)
    else some (sorted.getD lo.toNat 0 * (1 - (i - (lo : ℚ))) +
               sorted.getD hi.toNat 0 * (i - (lo : ℚ)))

/-- Modelled from the spec: the value obtained by blending the floor and
ceiling order statistics around a (rational) index `x` by the fractional
weight `x - ⌊x⌋`. -/
def interpAt (s : List ℚ) (x : ℚ) : ℚ :=
  s.getD (Int.toNat ⌊x⌋) 0 * (1 - (x - ((⌊x⌋ : ℤ) : ℚ))) +
  s.getD (Int.toNat ⌈x⌉) 0 * (x - ((⌊x⌋ : ℤ) : ℚ))

/-- Modelled from the spec: percentile by linear interpolation between
order statistics at index `(n - 1) * p` — the canonical definition the
spec prescribes. -/
def interpPercentile (s : List ℚ) (p : ℚ) : ℚ :=
  interpAt s (((s.length - 1 : ℕ) : ℚ) * p)

theorem interpAt_of_floor_eq_zero_frac (s : List ℚ) {x : ℚ} (hx : x = ((⌊x⌋ : ℤ) : ℚ)) :
    interpAt s x = s.getD (Int.toNat ⌊x⌋) 0 := by
  unfold interpAt
  rw [← hx]
  ring

theorem pct_interp_aux (s : List ℚ) (p : ℚ) (hne : s ≠ [])
    (hp0 : 0 ≤ p) (hp1 : p ≤ 1) :
    pct s p = some (interpPercentile s p) := by
  have hlen : s.length ≠ 0 := Nat.pos_iff_ne_zero.mp (List.length_pos.mpr hne)
  unfold pct interpPercentile
  rw [if_neg hlen]
  by_cases h0 : p ≤ 0
  · have hp : p = 0 := le_antisymm h0 hp0
    subst hp
    rw [if_pos le_rfl]
    have : (((s.length - 1 : ℕ) : ℚ) * 0) = 0 := by ring
    rw [this, interpAt_of_floor_eq_zero_frac]
    · norm_num
    · norm_num
  · rw [if_neg h0]
    by_cases h1 : 1 ≤ p
    · have hp : p = 1 := le_antisymm hp1 h1
      subst hp
      rw [if_pos le_rfl]
      have hx : (((s.length - 1 : ℕ) : ℚ) * 1) = ((s.length - 1 : ℕ) : ℚ) := by ring
      rw [hx, interpAt_of_floor_eq_zero_frac]
      · rw [Int.floor_natCast, Int.toNat_natCast]
      · rw [Int.floor_natCast]
        norm_num
    · rw [if_neg h1]
      set i : ℚ := ((s.length - 1 : ℕ) : ℚ) * p with hi
      by_cases hfc : ⌊i⌋ = ⌈i⌉
      · rw [if_pos hfc]
        have hint : i = ((⌊i⌋ : ℤ) : ℚ) := by
          have hle : i ≤ ((⌊i⌋ : ℤ) : ℚ) := by
            calc i ≤ ((⌈i⌉ : ℤ) : ℚ) := Int.le_ceil i
            _ = ((⌊i⌋ : ℤ) : ℚ) := by rw [hfc]
          exact le_antisymm hle (Int.floor_le i)
        rw [interpAt_of_floor_eq_zero_frac s hint]
      · rw [if_neg hfc]
        unfold interpAt
        rfl

/-- Helper: monotone access into a sorted list. -/
theorem sorted_getD_mono {s : List ℚ} (hs : List.Sorted (· ≤ ·) s)
    {a b : ℕ} (hab : a ≤ b) (hb : b < s.length) :
    s.getD a 0 ≤ s.getD b 0 := by
  have ha : a < s.length := lt_of_le_of_lt hab hb
  rw [List.getD_eq_getElem s 0 ha, List.getD_eq_getElem s 0 hb]
  have := hs.rel_get_of_le (a := ⟨a, ha⟩) (b := ⟨b, hb⟩) (by exact hab)
  simpa [List.get_eq_getElem] using this

theorem ceil_eq_floor_add_one_of_frac {x : ℚ} (h : ((⌊x⌋ : ℤ) : ℚ) < x) :
    ⌈x⌉ = ⌊x⌋ + 1 := by
  have h1 : ⌈x⌉ ≤ ⌊x⌋ + 1 := Int.ceil_le_floor_add_one x
  have h2 : ⌊x⌋ < ⌈x⌉ := by
    by_contra hc
    push_neg at hc
    have hle : ((⌈x⌉ : ℤ) : ℚ) ≤ ((⌊x⌋ : ℤ) : ℚ) := by exact_mod_cast hc
    have := le_trans (Int.le_ceil x) hle
    linarith
  omega

theorem interpAt_index_bounds {s : List ℚ} (hne : s ≠ []) {x : ℚ}
    (_hx0 : 0 ≤ x) (hx1 : x ≤ ((s.length - 1 : ℕ) : ℚ)) :
    Int.toNat ⌊x⌋ ≤ Int.toNat ⌈x⌉ ∧ Int.toNat ⌈x⌉ < s.length := by
  have hlen : 0 < s.length := List.length_pos.mpr hne
  have hfc : ⌊x⌋ ≤ ⌈x⌉ := Int.floor_le_ceil x
  have hcb : ⌈x⌉ ≤ ((s.length - 1 : ℕ) : ℤ) := Int.ceil_le.mpr (by exact_mod_cast hx1)
  constructor
  · exact Int.toNat_le_toNat hfc
  · have h1 : Int.toNat ⌈x⌉ ≤ s.length - 1 := by
      have := Int.toNat_le_toNat hcb
      simpa using this
    omega

theorem interpAt_between {s : List ℚ} (hs : List.Sorted (· ≤ ·) s) (hne : s ≠ [])
    {x : ℚ} (hx0 : 0 ≤ x) (hx1 : x ≤ ((s.length - 1 : ℕ) : ℚ)) :
    s.getD (Int.toNat ⌊x⌋) 0 ≤ interpAt s x ∧
    interpAt s x ≤ s.getD (Int.toNat ⌈x⌉) 0 := by
  obtain ⟨hij, hib⟩ := interpAt_index_bounds hne hx0 hx1
  have hab : s.getD (Int.toNat ⌊x⌋) 0 ≤ s.getD (Int.toNat ⌈x⌉) 0 :=
    sorted_getD_mono hs hij hib
  have hw0 : 0 ≤ x - ((⌊x⌋ : ℤ) : ℚ) := sub_nonneg.mpr (Int.floor_le x)
  have hw1 : x - ((⌊x⌋ : ℤ) : ℚ) ≤ 1 := by
    have := Int.lt_floor_add_one x
    push_cast at this
    linarith
  unfold interpAt
  constructor <;> nlinarith [hab, hw0, hw1]

theorem interpAt_mono {s : List ℚ} (hs : List.Sorted (· ≤ ·) s) (hne : s ≠ [])
    {x y : ℚ} (hx0 : 0 ≤ x) (hxy : x ≤ y) (hy1 : y ≤ ((s.length - 1 : ℕ) : ℚ)) :
    interpAt s x ≤ interpAt s y := by
  have hx1 : x ≤ ((s.length - 1 : ℕ) : ℚ) := le_trans hxy hy1
  have hy0 : 0 ≤ y := le_trans hx0 hxy
  rcases lt_or_eq_of_le (Int.floor_le_floor hxy) with hlt | heq
  · have h1 : interpAt s x ≤ s.getD (Int.toNat ⌈x⌉) 0 :=
      (interpAt_between hs hne hx0 hx1).2
    have hidx : Int.toNat ⌈x⌉ ≤ Int.toNat ⌊y⌋ := by
      have hcf : ⌈x⌉ ≤ ⌊y⌋ := le_trans (Int.ceil_le_floor_add_one x) (by omega)
      exact Int.toNat_le_toNat hcf
    have hyb : Int.toNat ⌊y⌋ < s.length := by
      obtain ⟨hij, hib⟩ := interpAt_index_bounds hne hy0 hy1
      exact lt_of_le_of_lt hij hib
    have h2 : s.getD (Int.toNat ⌈x⌉) 0 ≤ s.getD (Int.toNat ⌊y⌋) 0 :=
      sorted_getD_mono hs hidx hyb
    have h3 : s.getD (Int.toNat ⌊y⌋) 0 ≤ interpAt s y :=
      (interpAt_between hs hne hy0 hy1).1
    linarith
  · by_cases hxi : x = ((⌊x⌋ : ℤ) : ℚ)
    · have hxv : interpAt s x = s.getD (Int.toNat ⌊x⌋) 0 :=
        interpAt_of_floor_eq_zero_frac s hxi
      rw [hxv, heq]
      exact (interpAt_between hs hne hy0 hy1).1
    · have hxfr : ((⌊x⌋ : ℤ) : ℚ) < x := lt_of_le_of_ne (Int.floor_le x) (Ne.symm hxi)
      have hyfr : ((⌊y⌋ : ℤ) : ℚ) < y := by
        rw [← heq]
        exact lt_of_lt_of_le hxfr hxy
      have hcx : ⌈x⌉ = ⌊x⌋ + 1 := ceil_eq_floor_add_one_of_frac hxfr
      have hcy : ⌈y⌉ = ⌊y⌋ + 1 := ceil_eq_floor_add_one_of_frac hyfr
      have hib : Int.toNat ⌈y⌉ < s.length := (interpAt_index_bounds hne hy0 hy1).2
      have hij : Int.toNat ⌊y⌋ ≤ Int.toNat ⌈y⌉ := (interpAt_index_bounds hne hy0 hy1).1
      have hab : s.getD (Int.toNat ⌊y⌋) 0 ≤ s.getD (Int.toNat ⌈y⌉) 0 :=
        sorted_getD_mono hs hij hib
      have hcy' : ⌈y⌉ = ⌊x⌋ + 1 := by rw [hcy, ← heq]
      have hab' : s.getD (Int.toNat ⌊x⌋) 0 ≤ s.getD (Int.toNat (⌊x⌋ + 1)) 0 := by
        rw [← heq] at hab
        rw [hcy'] at hab
        exact hab
      have hwx : 0 ≤ x - ((⌊x⌋ : ℤ) : ℚ) := sub_nonneg.mpr (Int.floor_le x)
      have hwxy : x - ((⌊x⌋ : ℤ) : ℚ) ≤ y - ((⌊x⌋ : ℤ) : ℚ) := by linarith
      unfold interpAt
      rw [hcx, hcy', ← heq]
      nlinarith [hab', hwx, hwxy]

/-- C7: for every non-empty sorted ascending list, the interpolated
percentile `pct` at `p = 0` is the minimum element, at `p = 1` the maximum
element, and `pct` is non-decreasing in `p` on `[0, 1]`. -/
theorem pct_min_max_monotone (s : List ℚ) (hs : List.Sorted (· ≤ ·) s) (hne : s ≠ []) :
    (∃ m, pct s 0 = some m ∧ m ∈ s ∧ ∀ x ∈ s, m ≤ x) ∧
    (∃ M, pct s 1 = some M ∧ M ∈ s ∧ ∀ x ∈ s, x ≤ M) ∧
    (∀ p1 p2 v1 v2, 0 ≤ p1 → p1 ≤ p2 → p2 ≤ 1 →
      pct s p1 = some v1 → pct s p2 = some v2 → v1 ≤ v2) := by
  have hlen : 0 < s.length := List.length_pos.mpr hne
  have hlen' : s.length ≠ 0 := Nat.pos_iff_ne_zero.mp hlen
  refine ⟨⟨s.getD 0 0, ?_, ?_, ?_⟩, ⟨s.getD (s.length - 1) 0, ?_, ?_, ?_⟩, ?_⟩
  · unfold pct
    rw [if_neg hlen', if_pos le_rfl]
  · rw [List.getD_eq_getElem s 0 hlen]
    exact List.getElem_mem hlen
  · intro x hx
    obtain ⟨j, hj, hxj⟩ := List.mem_iff_getElem.mp hx
    rw [← hxj, ← List.getD_eq_getElem s 0 hj]
    exact sorted_getD_mono hs (Nat.zero_le j) hj
  · unfold pct
    rw [if_neg hlen', if_neg (by norm_num), if_pos le_rfl]
  · have hl : s.length - 1 < s.length := by omega
    rw [List.getD_eq_getElem s 0 hl]
    exact List.getElem_mem hl
  · intro x hx
    obtain ⟨j, hj, hxj⟩ := List.mem_iff_getElem.mp hx
    rw [← hxj, ← List.getD_eq_getElem s 0 hj]
    exact sorted_getD_mono hs (by omega) (by omega)
  · intro p1 p2 v1 v2 hp10 hp12 hp21 h1 h2
    have hp11 : p1 ≤ 1 := le_trans hp12 hp21
    have hp20 : 0 ≤ p2 := le_trans hp10 hp12
    rw [pct_interp_aux s p1 hne hp10 hp11] at h1
    rw [pct_interp_aux s p2 hne hp20 hp21] at h2
    have hv1 : v1 = interpPercentile s p1 := by
      exact (Option.some_injective _ h1).symm
    have hv2 : v2 = interpPercentile s p2 := by
      exact (Option.some_injective _ h2).symm
    rw [hv1, hv2]
    unfold interpPercentile
    have hc0 : (0 : ℚ) ≤ ((s.length - 1 : ℕ) : ℚ) := by positivity
    apply interpAt_mono hs hne
    · exact mul_nonneg hc0 hp10
    · exact mul_le_mul_of_nonneg_left hp12 hc0
    · calc ((s.length - 1 : ℕ) : ℚ) * p2 ≤ ((s.length - 1 : ℕ) : ℚ) * 1 :=
        mul_le_mul_of_nonneg_left hp21 hc0
      _ = ((s.length - 1 : ℕ) : ℚ) := by ring

/-- Witness for C7 at the concrete sorted list `[1, 2, 4]`. -/
theorem pct_min_max_monotone_w :
    (∃ m, pct [(1 : ℚ), 2, 4] 0 = some m ∧ m ∈ [(1 : ℚ), 2, 4] ∧
        ∀ x ∈ [(1 : ℚ), 2, 4], m ≤ x) ∧
    (∃ M, pct [(1 : ℚ), 2, 4] 1 = some M ∧ M ∈ [(1 : ℚ), 2, 4] ∧
        ∀ x ∈ [(1 : ℚ), 2, 4], x ≤ M) ∧
    (∀ p1 p2 v1 v2, 0 ≤ p1 → p1 ≤ p2 → p2 ≤ 1 →
      pct [(1 : ℚ), 2, 4] p1 = some v1 → pct [(1 : ℚ), 2, 4] p2 = some v2 → v1 ≤ v2) :=
  pct_min_max_monotone [1, 2, 4] (by norm_num [List.sorted_cons]) (by simp)

/-! Grouping of values by year, modelling the JS `byYear` object/Map:
a new key is appended at its first occurrence, later values for the same
key are pushed onto that key's array. -/

def insertGroup {α : Type} : List (ℤ × List α) → ℤ → α → List (ℤ × List α)
  | [], y, v => [(y, [v])]
  | (k, vs) :: rest, y, v =>
    if k = y then (k, vs ++ [v]) :: rest
    else (k, vs) :: insertGroup rest y v

/-- Model of building the JS `byYear` map by iterating over the pairs. -/
def groupByYear {α : Type} (ps : List (ℤ × α)) : List (ℤ × List α) :=
  ps.foldl (fun acc p => insertGroup acc p.1 p.2) []

def lookupVals {α : Type} : List (ℤ × List α) → ℤ → List α
  | [], _ => []
  | (k, vs) :: rest, y => if k = y then vs else lookupVals rest y

def groupKeys {α : Type} (l : List (ℤ × List α)) : List ℤ := l.map Prod.fst

theorem lookupVals_insertGroup {α : Type} (l : List (ℤ × List α)) (y : ℤ) (v : α)
    (k : ℤ) :
    lookupVals (insertGroup l y v) k =
      if y = k then lookupVals l y ++ [v] else lookupVals l k := by
  induction l with
  | nil => by_cases h : y = k <;> simp [insertGroup, lookupVals, h]
  | cons a rest ih =>
    obtain ⟨ak, avs⟩ := a
    by_cases hay : ak = y
    · subst hay
      by_cases hk : ak = k
      · subst hk
        simp [insertGroup, lookupVals]
      · simp [insertGroup, lookupVals, hk]
    · by_cases hk : ak = k
      · subst hk
        have hyk : ¬ y = ak := fun h => hay h.symm
        simp [insertGroup, lookupVals, hay, hyk]
      · simp [insertGroup, lookupVals, hay, hk, ih]

theorem groupKeys_insertGroup {α : Type} (l : List (ℤ × List α)) (y : ℤ) (v : α) :
    groupKeys (insertGroup l y v) =
      if y ∈ groupKeys l then groupKeys l else groupKeys l ++ [y] := by
  induction l with
  | nil => simp [insertGroup, groupKeys]
  | cons a rest ih =>
    obtain ⟨ak, avs⟩ := a
    by_cases hay : ak = y
    · subst hay
      simp [insertGroup, groupKeys]
    · have hya : ¬ y = ak := fun h => hay h.symm
      have h1 : insertGroup ((ak, avs) :: rest) y v = (ak, avs) :: insertGroup rest y v := by
        simp [insertGroup, hay]
      rw [h1]
      have h2 : groupKeys ((ak, avs) :: insertGroup rest y v) =
          ak :: groupKeys (insertGroup rest y v) := rfl
      have h3 : groupKeys ((ak, avs) :: rest) = ak :: groupKeys rest := rfl
      rw [h2, ih, h3]
      by_cases hy : y ∈ groupKeys rest
      · rw [if_pos hy, if_pos (List.mem_cons.mpr (Or.inr hy))]
      · rw [if_neg hy, if_neg (by simp [hya, hy])]
        simp

theorem nodup_groupKeys_insertGroup {α : Type} {l : List (ℤ × List α)}
    (h : (groupKeys l).Nodup) (y : ℤ) (v : α) :
    (groupKeys (insertGroup l y v)).Nodup := by
  rw [groupKeys_insertGroup]
  by_cases hy : y ∈ groupKeys l
  · simpa [hy] using h
  · simp [hy, List.nodup_append, h]

theorem lookupVals_groupByYear_aux {α : Type} (ps : List (ℤ × α))
    (acc : List (ℤ × List α)) (k : ℤ) :
    lookupVals (ps.foldl (fun a p => insertGroup a p.1 p.2) acc) k =
      lookupVals acc k ++ (ps.filter (fun p => p.1 == k)).map Prod.snd := by
  induction ps generalizing acc with
  | nil => simp
  | cons p rest ih =>
    simp only [List.foldl_cons]
    rw [ih, lookupVals_insertGroup]
    by_cases hk : p.1 = k
    · subst hk
      simp [List.filter_cons, List.append_assoc]
    · simp [List.filter_cons, hk]

theorem lookupVals_groupByYear {α : Type} (ps : List (ℤ × α)) (k : ℤ) :
    lookupVals (groupByYear ps) k = (ps.filter (fun p => p.1 == k)).map Prod.snd := by
  have := lookupVals_groupByYear_aux ps [] k
  simpa [lookupVals] using this

theorem mem_groupKeys_groupByYear_aux {α : Type} (ps : List (ℤ × α))
    (acc : List (ℤ × List α)) (k : ℤ) :
    k ∈ groupKeys (ps.foldl (fun a p => insertGroup a p.1 p.2) acc) ↔
      k ∈ groupKeys acc ∨ k ∈ ps.map Prod.fst := by
  induction ps generalizing acc with
  | nil => simp
  | cons p rest ih =>
    simp only [List.foldl_cons, ih, List.map_cons, List.mem_cons]
    rw [groupKeys_insertGroup]
    by_cases hp : p.1 ∈ groupKeys acc
    · have hkp : k = p.1 → k ∈ groupKeys acc := fun h => h ▸ hp
      simp only [if_pos hp]
      tauto
    · simp only [if_neg hp, List.mem_append, List.mem_singleton]
      tauto

theorem mem_groupKeys_groupByYear {α : Type} (ps : List (ℤ × α)) (k : ℤ) :
    k ∈ groupKeys (groupByYear ps) ↔ k ∈ ps.map Prod.fst := by
  have := mem_groupKeys_groupByYear_aux ps [] k
  simpa [groupKeys] using this

theorem nodup_groupKeys_groupByYear_aux {α : Type} (ps : List (ℤ × α))
    (acc : List (ℤ × List α)) (h : (groupKeys acc).Nodup) :
    (groupKeys (ps.foldl (fun a p => insertGroup a p.1 p.2) acc)).Nodup := by
  induction ps generalizing acc with
  | nil => simpa using h
  | cons p rest ih =>
    simp only [List.foldl_cons]
    exact ih _ (nodup_groupKeys_insertGroup h p.1 p.2)

theorem nodup_groupKeys_groupByYear {α : Type} (ps : List (ℤ × α)) :
    (groupKeys (groupByYear ps)).Nodup :=
  nodup_groupKeys_groupByYear_aux ps [] (by simp [groupKeys])

theorem eq_lookupVals_of_mem {α : Type} :
    ∀ (l : List (ℤ × List α)), (groupKeys l).Nodup →
      ∀ {k : ℤ} {vs : List α}, (k, vs) ∈ l → lookupVals l k = vs := by
  intro l
  induction l with
  | nil => simp
  | cons a rest ih =>
    obtain ⟨ak, avs⟩ := a
    intro hnd k vs hmem
    have hnd' : (groupKeys rest).Nodup := (List.nodup_cons.mp hnd).2
    rcases List.mem_cons.mp hmem with heq | htail
    · obtain ⟨h1, h2⟩ := Prod.mk.injEq .. ▸ heq
      · simp [lookupVals, h1.symm, h2]
    · have hk : ¬ ak = k := by
        intro h
        subst h
        have : ak ∈ groupKeys rest :=
          List.mem_map.mpr ⟨(ak, vs), htail, rfl⟩
        exact (List.nodup_cons.mp hnd).1 this
      simp only [lookupVals, if_neg hk]
      exact ih hnd' htail

/-! The part_002 / TS-variant statistics pipeline: filtered amounts,
per-year grouping, and the year trend with interpolated medians. -/

/-- Model of the row filter loop in the TS variants: drop rows whose
amount or year is non-finite, and when `ignoreZero` holds drop rows with
amount `≤ 0`; the surviving rows contribute `(year, amount)` pairs in row
order. -/
def tsFilter (rows : List Row) (ignoreZero : Bool) : List (ℤ × ℚ) :=
  rows.filterMap fun r =>
    match r.paid_amt, r.dos_year with
    | some amt, some yr =>
      if ignoreZero && decide (amt ≤ 0) then none else some (yr, amt)
    | _, _ => none

/-- The `byYear` map of the TS variants. -/
def byYear002 (rows : List Row) (ignoreZero : Bool) : List (ℤ × List ℚ) :=
  groupByYear (tsFilter rows ignoreZero)

structure TrendEntryQ where
  year : ℤ
  median : Option ℚ
  deriving DecidableEq, Repr

instance pairKeyLeDecidable :
    DecidableRel (fun a b : ℤ × List ℚ => a.1 ≤ b.1) :=
  fun a b => inferInstanceAs (Decidable (a.1 ≤ b.1))

instance pairKeyLeTotal : IsTotal (ℤ × List ℚ) (fun a b => a.1 ≤ b.1) :=
  ⟨fun a b => le_total a.1 b.1⟩

instance pairKeyLeTrans : IsTrans (ℤ × List ℚ) (fun a b => a.1 ≤ b.1) :=
  ⟨fun _ _ _ h1 h2 => le_trans h1 h2⟩

/-- Model of `trend_by_year` in the TS variants: the `byYear` entries
sorted ascending by year, each mapped to its interpolated median. -/
def trend002 (rows : List Row) (ignoreZero : Bool) : List TrendEntryQ :=
  ((byYear002 rows ignoreZero).insertionSort (fun a b => a.1 ≤ b.1)).map
    fun g => ⟨g.1, pct (g.2.insertionSort (· ≤ ·)) (1/2)⟩

/-- The filtered amounts of one service year, in row order. -/
def yearRows002 (rows : List Row) (ignoreZero : Bool) (y : ℤ) : List ℚ :=
  ((tsFilter rows ignoreZero).filter (fun p => p.1 == y)).map Prod.snd

/-- C2 (amended): in the interpolated variants, the percentile function
`pct` used for median/p25/p75 agrees on every non-empty list and every
`p ∈ [0, 1]` with the spec's linear interpolation between order statistics
at index `(n - 1) * p`; the cascade variants' floor-index computation does
not satisfy this definition (see the counterexample). -/
theorem pct_eq_interpPercentile (s : List ℚ) (p : ℚ) (hne : s ≠ [])
    (hp0 : 0 ≤ p) (hp1 : p ≤ 1) :
    pct s p = some (interpPercentile s p) :=
  pct_interp_aux s p hne hp0 hp1

/-- Witness for C2 at the concrete list `[0, 10]` and `p = 1/2`. -/
theorem pct_eq_interpPercentile_w :
    pct [(0 : ℚ), 10] (1/2) = some (interpPercentile [(0 : ℚ), 10] (1/2)) :=
  pct_eq_interpPercentile [0, 10] (1/2) (by simp) (by norm_num) (by norm_num)

/-- C5 (amended): in the TS variants, `trend_by_year` is strictly
ascending by year, every entry's year has at least one filtered row, and
every entry's median equals `pct(yearRows, 0.5)` computed over that single
year's filtered rows only.  (In the cascade variants the per-year median
is the rounded upper median `arr[⌊len/2⌋]`, not the interpolated
percentile — see the counterexample.) -/
theorem trend002_sorted_and_medians (rows : List Row) (iz : Bool) :
    List.Pairwise (fun a b : TrendEntryQ => a.year < b.year) (trend002 rows iz) ∧
    ∀ e ∈ trend002 rows iz,
      yearRows002 rows iz e.year ≠ [] ∧
      e.median = pct ((yearRows002 rows iz e.year).insertionSort (· ≤ ·)) (1/2) := by
  have hGnd : (groupKeys (byYear002 rows iz)).Nodup := by
    unfold byYear002
    exact nodup_groupKeys_groupByYear _
  have hperm :
      ((byYear002 rows iz).insertionSort (fun a b => a.1 ≤ b.1)).Perm
        (byYear002 rows iz) :=
    List.perm_insertionSort _ _
  have hSGnd :
      (groupKeys ((byYear002 rows iz).insertionSort (fun a b => a.1 ≤ b.1))).Nodup := by
    exact ((hperm.map Prod.fst).nodup_iff).mpr hGnd
  have hsorted :
      List.Sorted (fun a b : ℤ × List ℚ => a.1 ≤ b.1)
        ((byYear002 rows iz).insertionSort (fun a b => a.1 ≤ b.1)) :=
    List.sorted_insertionSort _ _
  have hkeysle :
      List.Pairwise (· ≤ ·)
        (((byYear002 rows iz).insertionSort (fun a b => a.1 ≤ b.1)).map Prod.fst) :=
    List.pairwise_map.mpr hsorted
  have hkeyslt :
      List.Pairwise (· < ·)
        (((byYear002 rows iz).insertionSort (fun a b => a.1 ≤ b.1)).map Prod.fst) :=
    List.Sorted.lt_of_le hkeysle hSGnd
  have hpairslt :
      List.Pairwise (fun a b : ℤ × List ℚ => a.1 < b.1)
        ((byYear002 rows iz).insertionSort (fun a b => a.1 ≤ b.1)) :=
    List.pairwise_map.mp hkeyslt
  constructor
  · unfold trend002
    exact List.pairwise_map.mpr hpairslt
  · intro e he
    obtain ⟨g, hg, hge⟩ := List.mem_map.mp he
    have hgG : g ∈ byYear002 rows iz := hperm.mem_iff.mp hg
    have hmemp : (g.1, g.2) ∈ byYear002 rows iz := by
      simpa using hgG
    have hlook : lookupVals (byYear002 rows iz) g.1 = g.2 :=
      eq_lookupVals_of_mem _ hGnd hmemp
    have hlook2 : lookupVals (byYear002 rows iz) g.1 = yearRows002 rows iz g.1 := by
      unfold byYear002 yearRows002
      exact lookupVals_groupByYear _ _
    have hg2 : g.2 = yearRows002 rows iz g.1 := by rw [← hlook, hlook2]
    have hkey : g.1 ∈ (tsFilter rows iz).map Prod.fst := by
      have hmk : g.1 ∈ groupKeys (byYear002 rows iz) :=
        List.mem_map.mpr ⟨g, hgG, rfl⟩
      unfold byYear002 at hmk
      exact (mem_groupKeys_groupByYear _ _).mp hmk
    have hne : yearRows002 rows iz g.1 ≠ [] := by
      obtain ⟨p, hp, hp1⟩ := List.mem_map.mp hkey
      have hmem2 : p.2 ∈ yearRows002 rows iz g.1 :=
        List.mem_map.mpr ⟨p, List.mem_filter.mpr ⟨hp, by simp [hp1]⟩, rfl⟩
      intro hcon
      rw [hcon] at hmem2
      simp at hmem2
    have hyear : e.year = g.1 := by rw [← hge]
    have hmed : e.median = pct (g.2.insertionSort (· ≤ ·)) (1/2) := by rw [← hge]
    rw [hyear, hmed, hg2]
    exact ⟨hne, rfl⟩

/-- Witness for C5 on two concrete rows of the same year. -/
theorem trend002_sorted_and_medians_w :
    yearRows002 [⟨some 3, some 2021⟩, ⟨some 5, some 2021⟩] true 2021 ≠ [] ∧
    (⟨2021, some 4⟩ : TrendEntryQ).median =
      pct ((yearRows002 [⟨some 3, some 2021⟩, ⟨some 5, some 2021⟩] true
        2021).insertionSort (· ≤ ·)) (1/2) :=
  (trend002_sorted_and_medians [⟨some 3, some 2021⟩, ⟨some 5, some 2021⟩] true).2
    ⟨2021, some 4⟩ (by with_unfolding_all decide)

/-! The pg cascade variants (`part_000` unfiltered, `part_001` filtered).
The relational store is abstracted as the results of the individual
queries the handler issues, in their source order; `Except.error` models a
query that throws (caught by the surrounding try/catch as a 500). -/

def MIN_N : ℕ := 12

def MAX_RADIUS_ZIPS : ℕ := 50

/-- Model of the `/^\d{5}$/` test on the zip parameter. -/
def validZip (s : String) : Bool := s.length == 5 && s.toList.all Char.isDigit

/-- Model of the `/^\d{4,5}$/` test on the cpt parameter. -/
def validCpt (s : String) : Bool :=
  (s.length == 4 || s.length == 5) && s.toList.all Char.isDigit

/-- Ordering used to model the JS ascending sort of a value array that may
contain non-finite entries.  ECMAScript leaves the result order
unspecified when the comparator `(a, b) => a - b` returns `NaN`; the model
places non-finite (`none`) values after all finite values. -/
def optLe : Option ℚ → Option ℚ → Prop
  | _, none => True
  | none, some _ => False
  | some a, some b => a ≤ b

instance optLeDecidable : DecidableRel optLe := fun a b =>
  match a, b with
  | none, none => isTrue trivial
  | some _, none => isTrue trivial
  | none, some _ => isFalse id
  | some x, some y => inferInstanceAs (Decidable (x ≤ y))

/-- Model of `idx = p => Math.max(0, Math.min(vals.length-1,
Math.floor((p/100)*vals.length)))` from the cascade summarize
(`Int.toNat` of a negative integer is `0`, matching the outer
`Math.max(0, ·)`). -/
def idxOf (len : ℕ) (p : ℚ) : ℕ :=
  min (len - 1) (Int.toNat ⌊p / 100 * (len : ℚ)⌋)

structure TrendEntry where
  year : ℤ
  median : ℤ
  deriving DecidableEq, Repr

instance trendEntryLeDecidable :
    DecidableRel (fun a b : TrendEntry => a.year ≤ b.year) :=
  fun a b => inferInstanceAs (Decidable (a.year ≤ b.year))

/-- Scope metadata spread into `used_scope` by the cascade variants.
`distance_miles = none` models an absent key; `some none` models an
explicit JSON `null`. -/
structure ScopeMeta where
  representative_zip : Option String
  distance_miles : Option (Option ℚ)
  state : Option String
  deriving DecidableEq, Repr

structure Metrics where
  year_window : ℤ × ℤ
  mean : ℤ
  median : ℤ
  p25 : ℤ
  p75 : ℤ
  trend_by_year : List TrendEntry
  deriving DecidableEq, Repr

structure UsedScope where
  level : Option String
  sample_size : ℕ
  meta : ScopeMeta
  deriving DecidableEq, Repr

structure Body where
  query_zip : String
  used_scope : UsedScope
  metrics : Option Metrics
  deriving DecidableEq, Repr

/-- The terminal no-data JSON body:
`{ query_zip, used_scope: { level: null, sample_size: 0 }, metrics: null }`. -/
def noDataBody (zip : String) : Body :=
  ⟨zip, ⟨none, 0, ⟨none, none, none⟩⟩, none⟩

inductive Resp where
  | badParams
  | json (body : Option Body)
  | serverError
  deriving DecidableEq, Repr

/-- Rows of the year trend of the cascade summarize: every row whose
(numeric) service year lies in the closed window contributes its raw
amount (possibly non-finite) under that year. -/
def trendPairs (rows : List Row) (y0 y1 : ℤ) : List (ℤ × Option ℚ) :=
  rows.filterMap fun r =>
    match r.dos_year with
    | some y => if y0 ≤ y ∧ y ≤ y1 then some (y, r.paid_amt) else none
    | none => none

/-- Model of the cascade summarize's `trend` value: group the in-window
rows by year, take `dollars(arr[⌊arr.length/2⌋])` of each year's sorted
array, and sort the entries ascending by year. -/
def trend0 (rows : List Row) (y0 y1 : ℤ) : List TrendEntry :=
  ((groupByYear (trendPairs rows y0 y1)).map fun g =>
      let arr := g.2.insertionSort optLe
      TrendEntry.mk g.1 (dollarsOpt (arr.getD (arr.length / 2) none))
    ).insertionSort (fun a b => a.year ≤ b.year)

/-- Model of `summarize` from the unfiltered cascade (`part_000`): `vals`
are the finite amounts sorted ascending; `null` when no amount is finite;
`sample_size` is the raw row count; mean/median/p25/p75 use the
floor-index access into the sorted values. -/
def summarize0 (rows : List Row) (meta : ScopeMeta) (zip : String) (y0 y1 : ℤ)
    (level : String) : Option Body :=
  let vals := (rows.filterMap Row.paid_amt).insertionSort (· ≤ ·)
  if vals.length = 0 then none
  else some
    { query_zip := zip
      used_scope := ⟨some level, rows.length, meta⟩
      metrics := some
        { year_window := (y0, y1)
          mean := dollars (vals.sum / (vals.length : ℚ))
          median := dollars (vals.getD (vals.length / 2) 0)
          p25 := dollars (vals.getD (idxOf vals.length 25) 0)
          p75 := dollars (vals.getD (idxOf vals.length 75) 0)
          trend_by_year := trend0 rows y0 y1 } }

/-- JS property access `dollars[i]` on the `dollars` function object: a
function has no numeric properties, so the access is always `undefined`
(hence falsy), whatever the index. -/
def dollarsProp (_i : ℕ) : Option ℚ := none

/-- Model of `summarize` from the filtered cascade (`part_001`): identical
to `summarize0` except for the `p75` line
`dollars[idx(75)] ? dollars(vals[idx(75)]) : dollars(vals[vals.length-1])`,
whose guard is the always-undefined property access `dollarsProp`. -/
def summarize1 (rows : List Row) (meta : ScopeMeta) (zip : String) (y0 y1 : ℤ)
    (level : String) : Option Body :=
  let vals := (rows.filterMap Row.paid_amt).insertionSort (· ≤ ·)
  if vals.length = 0 then none
  else some
    { query_zip := zip
      used_scope := ⟨some level, rows.length, meta⟩
      metrics := some
        { year_window := (y0, y1)
          mean := dollars (vals.sum / (vals.length : ℚ))
          median := dollars (vals.getD (vals.length / 2) 0)
          p25 := dollars (vals.getD (idxOf vals.length 25) 0)
          p75 :=
            match dollarsProp (idxOf vals.length 75) with
            | some _ => dollars (vals.getD (idxOf vals.length 75) 0)
            | none => dollars (vals.getD (vals.length - 1) 0)
          trend_by_year := trend0 rows y0 y1 } }

/-- Model of `filterRows(rows, excludeZero, minPaid)` from the filtered
cascade: drop non-finite amounts, drop `amount ≤ 0` when `excludeZero`,
drop `amount < minPaid`. -/
def filterRows (rows : List Row) (excludeZero : Bool) (minPaid : ℚ) : List Row :=
  rows.filter fun r =>
    match r.paid_amt with
    | none => false
    | some v => !(excludeZero && decide (v ≤ 0)) && !(decide (v < minPaid))

structure Geo where
  state : Option String
  deriving DecidableEq, Repr

structure NearRow where
  zip5 : String
  dist_mi : ℚ
  deriving DecidableEq, Repr

/-- The store, abstracted as the results of the queries a cascade handler
can issue, in source order: exact zip, zip3, `zip_geometry` lookup, the
radius join over the nearest `MAX_RADIUS_ZIPS` zips, the nearest-1
representative query (`part_000` only), state, national. -/
structure Store where
  exactQ : Except String (List Row)
  zip3Q : Except String (List Row)
  geoQ : Except String (Option Geo)
  radiusQ : Except String (List Row)
  nearestQ : Except String (Option NearRow)
  stateQ : Except String (List Row)
  nationalQ : Except String (List Row)

/-- Meta reported by the unfiltered cascade at the radius scope:
`representative_zip = rep.rows[0]?.zip5 || zip` and
`distance_miles = rep.rows[0]?.dist_mi || null` (so a missing row, an
empty zip string, or a zero distance fall back, `||` being falsy on all
of them). -/
def radiusMeta0 (zip : String) (nr : Option NearRow) : ScopeMeta :=
  ⟨some (match nr with
         | some x => if x.zip5 = "" then zip else x.zip5
         | none => zip),
   some (match nr with
         | some x => if x.dist_mi = 0 then none else some x.dist_mi
         | none => none),
   none⟩

def national0 (st : Store) (zip : String) (y0 y1 : ℤ) : Resp :=
  match st.nationalQ with
  | .error _ => .serverError
  | .ok rows =>
    if MIN_N ≤ rows.length then
      .json (summarize0 rows ⟨none, none, none⟩ zip y0 y1 "national")
    else .json (some (noDataBody zip))

def stateStep0 (st : Store) (qgeo : Option Geo) (zip : String) (y0 y1 : ℤ) : Resp :=
  match qgeo with
  | some g =>
    match g.state with
    | some stName =>
      match st.stateQ with
      | .error _ => .serverError
      | .ok rows =>
        if MIN_N ≤ rows.length then
          .json (summarize0 rows ⟨none, none, some stName⟩ zip y0 y1 "state")
        else national0 st zip y0 y1
    | none => national0 st zip y0 y1
  | none => national0 st zip y0 y1

def radiusStep0 (st : Store) (qgeo : Option Geo) (zip : String) (y0 y1 : ℤ) : Resp :=
  match qgeo with
  | none => stateStep0 st none zip y0 y1
  | some g =>
    match st.radiusQ with
    | .error _ => .serverError
    | .ok rows =>
      if MIN_N ≤ rows.length then
        match st.nearestQ with
        | .error _ => .serverError
        | .ok nr => .json (summarize0 rows (radiusMeta0 zip nr) zip y0 y1 "radius")
      else stateStep0 st (some g) zip y0 y1

def geoStep0 (st : Store) (zip : String) (y0 y1 : ℤ) : Resp :=
  match st.geoQ with
  | .error _ => .serverError
  | .ok qgeo => radiusStep0 st qgeo zip y0 y1

def zip3Step0 (st : Store) (zip : String) (y0 y1 : ℤ) : Resp :=
  match st.zip3Q with
  | .error _ => .serverError
  | .ok zRows =>
    if MIN_N ≤ zRows.length then
      .json (summarize0 zRows ⟨none, none, none⟩ zip y0 y1 "zip3")
    else geoStep0 st zip y0 y1

/-- Model of the unfiltered cascade handler (`part_000`): gate each scope
on the raw fetched row count, stop at the first scope with at least
`MIN_N` raw rows, skip radius/state when the geo lookup found nothing. -/
def handler0 (st : Store) (zip cpt : String) (y0 y1 : ℤ) : Resp :=
  if validZip zip && validCpt cpt then
    match st.exactQ with
    | .error _ => .serverError
    | .ok eRows =>
      if MIN_N ≤ eRows.length then
        .json (summarize0 eRows ⟨some zip, none, none⟩ zip y0 y1 "zip")
      else zip3Step0 st zip y0 y1
  else .badParams

/-- Model of `runQuery` from the filtered cascade: filter, then gate on
the filtered count, then summarize; `null` falls through to the next
scope. -/
def accept1 (rows : List Row) (ez : Bool) (mp : ℚ) (meta : ScopeMeta)
    (zip : String) (y0 y1 : ℤ) (level : String) : Option Body :=
  let filtered := filterRows rows ez mp
  if MIN_N ≤ filtered.length then summarize1 filtered meta zip y0 y1 level
  else none

def national1 (st : Store) (zip : String) (y0 y1 : ℤ) (ez : Bool) (mp : ℚ) : Resp :=
  match st.nationalQ with
  | .error _ => .serverError
  | .ok rows =>
    match accept1 rows ez mp ⟨none, none, none⟩ zip y0 y1 "national" with
    | some b => .json (some b)
    | none => .json (some (noDataBody zip))

def stateStep1 (st : Store) (qgeo : Option Geo) (zip : String) (y0 y1 : ℤ)
    (ez : Bool) (mp : ℚ) : Resp :=
  match qgeo with
  | some g =>
    match g.state with
    | some stName =>
      match st.stateQ with
      | .error _ => .serverError
      | .ok rows =>
        match accept1 rows ez mp ⟨none, none, some stName⟩ zip y0 y1 "state" with
        | some b => .json (some b)
        | none => national1 st zip y0 y1 ez mp
    | none => national1 st zip y0 y1 ez mp
  | none => national1 st zip y0 y1 ez mp

def radiusStep1 (st : Store) (qgeo : Option Geo) (zip : String) (y0 y1 : ℤ)
    (ez : Bool) (mp : ℚ) : Resp :=
  match qgeo with
  | none => stateStep1 st none zip y0 y1 ez mp
  | some g =>
    match st.radiusQ with
    | .error _ => .serverError
    | .ok rows =>
      match accept1 rows ez mp ⟨some zip, none, none⟩ zip y0 y1 "radius" with
      | some b => .json (some b)
      | none => stateStep1 st (some g) zip y0 y1 ez mp

def geoStep1 (st : Store) (zip : String) (y0 y1 : ℤ) (ez : Bool) (mp : ℚ) : Resp :=
  match st.geoQ with
  | .error _ => .serverError
  | .ok qgeo => radiusStep1 st qgeo zip y0 y1 ez mp

def zip3Step1 (st : Store) (zip : String) (y0 y1 : ℤ) (ez : Bool) (mp : ℚ) : Resp :=
  match st.zip3Q with
  | .error _ => .serverError
  | .ok zRows =>
    match accept1 zRows ez mp ⟨none, none, none⟩ zip y0 y1 "zip3" with
    | some b => .json (some b)
    | none => geoStep1 st zip y0 y1 ez mp

/-- Model of the filtered cascade handler (`part_001`): each scope is
gated on the post-filter row count via `accept1`; at the radius scope the
reported meta is `{ representative_zip: zip }` — the query zip itself,
with no distance key and no nearest-1 query. -/
def handler1 (st : Store) (zip cpt : String) (y0 y1 : ℤ) (ez : Bool) (mp : ℚ) : Resp :=
  if validZip zip && validCpt cpt then
    match st.exactQ with
    | .error _ => .serverError
    | .ok eRows =>
      match accept1 eRows ez mp ⟨some zip, none, none⟩ zip y0 y1 "zip" with
      | some b => .json (some b)
      | none => zip3Step1 st zip y0 y1 ez mp
  else .badParams

/-! The paginated variant (first handler of
`src/pages/api/claim-metrics.ts`): its scope loop reads
`const { data, error } = await fetchScope(s); if (error) continue;
if (data && data.length) { usedScope = s; rows = data; break; }`
and the response is always a 200 with `used_scope`/`results`. -/

def scanScopes {R : Type} : List (String × Except String (List R)) → Option (String × List R)
  | [] => none
  | (_, .error _) :: rest => scanScopes rest
  | (s, .ok data) :: rest =>
    if data.length ≠ 0 then some (s, data) else scanScopes rest

structure VResp (R : Type) where
  used_scope : Option String
  results : List R
  deriving DecidableEq, Repr

/-- Model of the paginated handler's outcome given the per-scope query
results in priority order: the first scope that returned non-empty data
without error wins; otherwise `used_scope` is `null` with empty results —
still an HTTP 200 success. -/
def handlerV {R : Type} (scopeResults : List (String × Except String (List R))) :
    VResp R :=
  match scanScopes scopeResults with
  | some (s, rows) => ⟨some s, rows⟩
  | none => ⟨none, []⟩

/-! Projections used to state concrete response facts. -/

def respBody : Resp → Option Body
  | .json (some b) => some b
  | _ => none

def respLevel (r : Resp) : Option (Option String) :=
  (respBody r).map fun b => b.used_scope.level

def respSample (r : Resp) : Option ℕ :=
  (respBody r).map fun b => b.used_scope.sample_size

def respMean (r : Resp) : Option ℤ :=
  (respBody r).bind fun b => b.metrics.map Metrics.mean

def respMedian (r : Resp) : Option ℤ :=
  (respBody r).bind fun b => b.metrics.map Metrics.median

def respTrend (r : Resp) : Option (List TrendEntry) :=
  (respBody r).bind fun b => b.metrics.map Metrics.trend_by_year

def respDistance (r : Resp) : Option (Option (Option ℚ)) :=
  (respBody r).map fun b => b.used_scope.meta.distance_miles

def respRep (r : Resp) : Option (Option String) :=
  (respBody r).map fun b => b.used_scope.meta.representative_zip

/-! Support lemmas about the cascade summarize functions. -/

theorem summarize0_fields {rows : List Row} {meta : ScopeMeta} {zip : String}
    {y0 y1 : ℤ} {level : String} {b : Body}
    (h : summarize0 rows meta zip y0 y1 level = some b) :
    b.used_scope.level = some level ∧ b.used_scope.sample_size = rows.length ∧
    b.used_scope.meta = meta := by
  unfold summarize0 at h
  dsimp only at h
  split at h
  · exact absurd h (by simp)
  · obtain rfl : _ = b := Option.some_injective _ h
    exact ⟨rfl, rfl, rfl⟩

theorem summarize1_fields {rows : List Row} {meta : ScopeMeta} {zip : String}
    {y0 y1 : ℤ} {level : String} {b : Body}
    (h : summarize1 rows meta zip y0 y1 level = some b) :
    b.used_scope.level = some level ∧ b.used_scope.sample_size = rows.length ∧
    b.used_scope.meta = meta := by
  unfold summarize1 at h
  dsimp only at h
  split at h
  · exact absurd h (by simp)
  · obtain rfl : _ = b := Option.some_injective _ h
    exact ⟨rfl, rfl, rfl⟩

theorem summarize0_eq_none_iff {rows : List Row} {meta : ScopeMeta} {zip : String}
    {y0 y1 : ℤ} {level : String} :
    summarize0 rows meta zip y0 y1 level = none ↔ rows.filterMap Row.paid_amt = [] := by
  have hlen : ((rows.filterMap Row.paid_amt).insertionSort (· ≤ ·)).length
      = (rows.filterMap Row.paid_amt).length :=
    (List.perm_insertionSort _ _).length_eq
  unfold summarize0
  dsimp only
  split
  case isTrue h =>
    simp only [true_iff]
    rw [hlen] at h
    exact List.length_eq_zero.mp h
  case isFalse h =>
    simp only [reduceCtorEq, false_iff]
    intro hcon
    rw [hlen, hcon] at h
    simp at h

theorem summarize0_ne_noData {rows : List Row} {meta : ScopeMeta} {zip zip2 : String}
    {y0 y1 : ℤ} {level : String} :
    summarize0 rows meta zip y0 y1 level ≠ some (noDataBody zip2) := by
  intro h
  have := (summarize0_fields h).1
  simp [noDataBody] at this

theorem summarize1_ne_noData {rows : List Row} {meta : ScopeMeta} {zip zip2 : String}
    {y0 y1 : ℤ} {level : String} :
    summarize1 rows meta zip y0 y1 level ≠ some (noDataBody zip2) := by
  intro h
  have := (summarize1_fields h).1
  simp [noDataBody] at this

theorem length_filterMap_eq_of_isSome {α β : Type} {f : α → Option β} :
    ∀ {l : List α}, (∀ x ∈ l, (f x).isSome) → (l.filterMap f).length = l.length := by
  intro l
  induction l with
  | nil => intro _; rfl
  | cons a rest ih =>
    intro h
    have ha : (f a).isSome := h a (List.mem_cons_self a rest)
    obtain ⟨v, hv⟩ := Option.isSome_iff_exists.mp ha
    rw [List.filterMap_cons, hv]
    simp only [List.length_cons]
    rw [ih fun x hx => h x (List.mem_cons_of_mem a hx)]

theorem filterRows_paid_isSome {rows : List Row} {ez : Bool} {mp : ℚ} :
    ∀ r ∈ filterRows rows ez mp, r.paid_amt.isSome := by
  intro r hr
  unfold filterRows at hr
  have hp := (List.mem_filter.mp hr).2
  cases hpa : r.paid_amt with
  | none => rw [hpa] at hp; simp at hp
  | some v => simp

theorem summarize1_isSome_of_nonempty {rows : List Row} {meta : ScopeMeta}
    {zip : String} {y0 y1 : ℤ} {level : String}
    (h : rows.filterMap Row.paid_amt ≠ []) :
    ∃ b, summarize1 rows meta zip y0 y1 level = some b := by
  have hlen : ((rows.filterMap Row.paid_amt).insertionSort (· ≤ ·)).length
      = (rows.filterMap Row.paid_amt).length :=
    (List.perm_insertionSort _ _).length_eq
  unfold summarize1
  dsimp only
  split
  case isTrue hz =>
    rw [hlen] at hz
    exact absurd (List.length_eq_zero.mp hz) h
  case isFalse hz => exact ⟨_, rfl⟩

theorem sorted_le_getD_last {s : List ℚ} (hs : List.Sorted (· ≤ ·) s) :
    ∀ x ∈ s, x ≤ s.getD (s.length - 1) 0 := by
  intro x hx
  obtain ⟨j, hj, hxj⟩ := List.mem_iff_getElem.mp hx
  rw [← hxj, ← List.getD_eq_getElem s 0 hj]
  exact sorted_getD_mono hs (by omega) (by omega)

/-- C9: in the filtered cascade's summarize, the `p75` guard
`dollars[idx(75)]` indexes the `dollars` function object, is always
undefined, and the fallback branch is always taken, so for every row set
with at least one finite amount the reported `p75` is the rounded maximum
amount of the sample. -/
theorem summarize1_p75_is_max {rows : List Row} {meta : ScopeMeta} {zip : String}
    {y0 y1 : ℤ} {level : String} {b : Body}
    (h : summarize1 rows meta zip y0 y1 level = some b) :
    ∃ m M, b.metrics = some m ∧ M ∈ rows.filterMap Row.paid_amt ∧
      (∀ x ∈ rows.filterMap Row.paid_amt, x ≤ M) ∧ m.p75 = jsRound M := by
  have hperm : ((rows.filterMap Row.paid_amt).insertionSort (· ≤ ·)).Perm
      (rows.filterMap Row.paid_amt) := List.perm_insertionSort _ _
  have hsorted : List.Sorted (· ≤ ·)
      ((rows.filterMap Row.paid_amt).insertionSort (· ≤ ·)) :=
    List.sorted_insertionSort _ _
  unfold summarize1 at h
  dsimp only at h
  split at h
  · exact absurd h (by simp)
  case isFalse hz =>
    obtain rfl : _ = b := Option.some_injective _ h
    refine ⟨_, ((rows.filterMap Row.paid_amt).insertionSort (· ≤ ·)).getD
      (((rows.filterMap Row.paid_amt).insertionSort (· ≤ ·)).length - 1) 0,
      rfl, ?_, ?_, rfl⟩
    · have hlt : ((rows.filterMap Row.paid_amt).insertionSort (· ≤ ·)).length - 1 <
          ((rows.filterMap Row.paid_amt).insertionSort (· ≤ ·)).length := by
        omega
      rw [List.getD_eq_getElem _ 0 hlt]
      exact hperm.mem_iff.mp (List.getElem_mem hlt)
    · intro x hx
      exact sorted_le_getD_last hsorted x (hperm.mem_iff.mpr hx)

/-- Witness for C9 on two concrete rows. -/
theorem summarize1_p75_is_max_w :
    ∃ m M,
      (⟨"90210", ⟨some "zip", 2, ⟨none, none, none⟩⟩,
        some ⟨(2021, 2025), 5, 7, 3, 7, [⟨2021, 7⟩]⟩⟩ : Body).metrics = some m ∧
      M ∈ ([⟨some 7, some 2021⟩, ⟨some 3, some 2021⟩] :
        List Row).filterMap Row.paid_amt ∧
      (∀ x ∈ ([⟨some 7, some 2021⟩, ⟨some 3, some 2021⟩] :
        List Row).filterMap Row.paid_amt, x ≤ M) ∧
      m.p75 = jsRound M :=
  summarize1_p75_is_max (by with_unfolding_all rfl)

/-! Reduction lemmas for the filtered cascade's `accept1`. -/

theorem accept1_eq_summarize {rows : List Row} {ez : Bool} {mp : ℚ} {meta : ScopeMeta}
    {zip : String} {y0 y1 : ℤ} {level : String}
    (hge : MIN_N ≤ (filterRows rows ez mp).length) :
    accept1 rows ez mp meta zip y0 y1 level =
      summarize1 (filterRows rows ez mp) meta zip y0 y1 level := by
  unfold accept1
  dsimp only
  rw [if_pos hge]

theorem accept1_eq_none {rows : List Row} {ez : Bool} {mp : ℚ} {meta : ScopeMeta}
    {zip : String} {y0 y1 : ℤ} {level : String}
    (hlt : (filterRows rows ez mp).length < MIN_N) :
    accept1 rows ez mp meta zip y0 y1 level = none := by
  unfold accept1
  dsimp only
  rw [if_neg (not_le.mpr hlt)]

theorem accept1_some_fields {rows : List Row} {ez : Bool} {mp : ℚ} {meta : ScopeMeta}
    {zip : String} {y0 y1 : ℤ} {level : String} {b : Body}
    (h : accept1 rows ez mp meta zip y0 y1 level = some b) :
    MIN_N ≤ (filterRows rows ez mp).length ∧
    b.used_scope.level = some level ∧
    b.used_scope.sample_size = (filterRows rows ez mp).length ∧
    b.used_scope.meta = meta := by
  unfold accept1 at h
  dsimp only at h
  split at h
  case isTrue hge =>
    obtain ⟨h1, h2, h3⟩ := summarize1_fields h
    exact ⟨hge, h1, h2, h3⟩
  case isFalse hlt => exact absurd h (by simp)

theorem filterRows_filterMap_length {rows : List Row} {ez : Bool} {mp : ℚ} :
    ((filterRows rows ez mp).filterMap Row.paid_amt).length =
      (filterRows rows ez mp).length :=
  length_filterMap_eq_of_isSome filterRows_paid_isSome

theorem summarize1_filterRows_isSome {rows : List Row} {ez : Bool} {mp : ℚ}
    {meta : ScopeMeta} {zip : String} {y0 y1 : ℤ} {level : String}
    (hge : MIN_N ≤ (filterRows rows ez mp).length) :
    ∃ b, summarize1 (filterRows rows ez mp) meta zip y0 y1 level = some b := by
  apply summarize1_isSome_of_nonempty
  intro hcon
  have hlen := @filterRows_filterMap_length rows ez mp
  rw [hcon] at hlen
  simp only [List.length_nil] at hlen
  have h12 : (12 : ℕ) ≤ (filterRows rows ez mp).length := hge
  omega

/-- C10: in the unfiltered cascade, a scope is accepted as soon as the
raw fetched row count reaches `MIN_N`, before any non-finite amounts are
dropped; the reported `sample_size` is that raw row count; and when the
accepted rows contain no finite amount at all, `summarize` returns `null`
and the handler responds with a `null` JSON body instead of the
envelope. -/
theorem handler0_raw_gate {st : Store} {zip cpt : String} {y0 y1 : ℤ}
    {eRows : List Row}
    (hv : validZip zip = true) (hc : validCpt cpt = true)
    (he : st.exactQ = .ok eRows) (hn : MIN_N ≤ eRows.length) :
    handler0 st zip cpt y0 y1 =
      .json (summarize0 eRows ⟨some zip, none, none⟩ zip y0 y1 "zip") ∧
    (eRows.filterMap Row.paid_amt = [] → handler0 st zip cpt y0 y1 = .json none) ∧
    (∀ b, summarize0 eRows ⟨some zip, none, none⟩ zip y0 y1 "zip" = some b →
      b.used_scope.sample_size = eRows.length) := by
  have h1 : handler0 st zip cpt y0 y1 =
      .json (summarize0 eRows ⟨some zip, none, none⟩ zip y0 y1 "zip") := by
    simp [handler0, hv, hc, he, hn]
  refine ⟨h1, ?_, ?_⟩
  · intro hemp
    rw [h1, summarize0_eq_none_iff.mpr hemp]
  · intro b hb
    exact (summarize0_fields hb).2.1

def c10Rows : List Row := List.replicate 12 ⟨none, some 2021⟩

def c10Store : Store :=
  ⟨.ok c10Rows, .ok [], .ok none, .ok [], .ok none, .ok [], .ok []⟩

/-- Witness for C10: twelve rows whose amounts are all non-finite are
accepted at the exact scope and produce the `null` body. -/
theorem handler0_raw_gate_w :
    handler0 c10Store "90210" "12345" 2021 2025 =
      .json (summarize0 c10Rows ⟨some "90210", none, none⟩ "90210" 2021 2025 "zip") ∧
    (c10Rows.filterMap Row.paid_amt = [] →
      handler0 c10Store "90210" "12345" 2021 2025 = .json none) ∧
    (∀ b, summarize0 c10Rows ⟨some "90210", none, none⟩ "90210" 2021 2025 "zip" =
        some b → b.used_scope.sample_size = c10Rows.length) :=
  handler0_raw_gate (by with_unfolding_all rfl) (by with_unfolding_all rfl) rfl
    (by with_unfolding_all decide)

def c1Rows : List Row :=
  List.replicate 11 ⟨none, some 2021⟩ ++ [⟨some 100, some 2021⟩]

def c1Store : Store :=
  ⟨.ok c1Rows, .ok [], .ok none, .ok [], .ok none, .ok [], .ok []⟩

/-- C1 counterexample: in the unfiltered cascade, a store whose exact
scope has 12 raw rows of which only one amount is finite is accepted at
the exact scope (reported sample size 12) although its post-filter count
is 1 < MIN_N — the sample-size gate judges the raw count, not the
post-filter count, so the claim fails on this variant. -/
theorem handler0_gate_judges_raw_count_cex :
    respLevel (handler0 c1Store "90210" "12345" 2021 2025) = some (some "zip") ∧
    respSample (handler0 c1Store "90210" "12345" 2021 2025) = some 12 ∧
    (c1Rows.filterMap Row.paid_amt).length = 1 ∧ 1 < MIN_N := by
  with_unfolding_all decide

/-- C1 (amended): in the filtered cascade variant, the resolver evaluates
scopes in the fixed order exact zip, zip3, radius, state, national, and
accepts the first whose post-filter row count is at least `MIN_N`; every
accepted scope's reported sample size is at least `MIN_N`, the only
sub-threshold outcome being the terminal no-data body.  (In the
unfiltered variant the gate judges raw fetched counts — see the
counterexample.) -/
theorem handler1_first_fit {st : Store} {zip cpt : String} {y0 y1 : ℤ}
    {ez : Bool} {mp : ℚ} {e z r s n : List Row} {g : Geo} {sn : String}
    (hv : validZip zip = true) (hc : validCpt cpt = true)
    (he : st.exactQ = .ok e) (hz : st.zip3Q = .ok z)
    (hg : st.geoQ = .ok (some g)) (hgs : g.state = some sn)
    (hr : st.radiusQ = .ok r) (hs : st.stateQ = .ok s)
    (hn : st.nationalQ = .ok n) :
    (MIN_N ≤ (filterRows e ez mp).length →
      handler1 st zip cpt y0 y1 ez mp =
        .json (summarize1 (filterRows e ez mp) ⟨some zip, none, none⟩ zip y0 y1 "zip")) ∧
    ((filterRows e ez mp).length < MIN_N →
      MIN_N ≤ (filterRows z ez mp).length →
      handler1 st zip cpt y0 y1 ez mp =
        .json (summarize1 (filterRows z ez mp) ⟨none, none, none⟩ zip y0 y1 "zip3")) ∧
    ((filterRows e ez mp).length < MIN_N →
      (filterRows z ez mp).length < MIN_N →
      MIN_N ≤ (filterRows r ez mp).length →
      handler1 st zip cpt y0 y1 ez mp =
        .json (summarize1 (filterRows r ez mp) ⟨some zip, none, none⟩ zip y0 y1 "radius")) ∧
    ((filterRows e ez mp).length < MIN_N →
      (filterRows z ez mp).length < MIN_N →
      (filterRows r ez mp).length < MIN_N →
      MIN_N ≤ (filterRows s ez mp).length →
      handler1 st zip cpt y0 y1 ez mp =
        .json (summarize1 (filterRows s ez mp) ⟨none, none, some sn⟩ zip y0 y1 "state")) ∧
    ((filterRows e ez mp).length < MIN_N →
      (filterRows z ez mp).length < MIN_N →
      (filterRows r ez mp).length < MIN_N →
      (filterRows s ez mp).length < MIN_N →
      MIN_N ≤ (filterRows n ez mp).length →
      handler1 st zip cpt y0 y1 ez mp =
        .json (summarize1 (filterRows n ez mp) ⟨none, none, none⟩ zip y0 y1 "national")) ∧
    ((filterRows e ez mp).length < MIN_N →
      (filterRows z ez mp).length < MIN_N →
      (filterRows r ez mp).length < MIN_N →
      (filterRows s ez mp).length < MIN_N →
      (filterRows n ez mp).length < MIN_N →
      handler1 st zip cpt y0 y1 ez mp = .json (some (noDataBody zip))) ∧
    (∀ b, handler1 st zip cpt y0 y1 ez mp = .json (some b) →
      ∀ lvl, b.used_scope.level = some lvl → MIN_N ≤ b.used_scope.sample_size) := by
  refine ⟨?_, ?_, ?_, ?_, ?_, ?_, ?_⟩
  · intro h1
    obtain ⟨b, hb⟩ := @summarize1_filterRows_isSome e ez mp
      ⟨some zip, none, none⟩ zip y0 y1 "zip" h1
    simp [handler1, hv, hc, he, accept1_eq_summarize h1, hb]
  · intro h1 h2
    obtain ⟨b, hb⟩ := @summarize1_filterRows_isSome z ez mp
      ⟨none, none, none⟩ zip y0 y1 "zip3" h2
    simp [handler1, hv, hc, he, accept1_eq_none h1, zip3Step1, hz,
      accept1_eq_summarize h2, hb]
  · intro h1 h2 h3
    obtain ⟨b, hb⟩ := @summarize1_filterRows_isSome r ez mp
      ⟨some zip, none, none⟩ zip y0 y1 "radius" h3
    simp [handler1, hv, hc, he, accept1_eq_none h1, zip3Step1, hz,
      accept1_eq_none h2, geoStep1, hg, radiusStep1, hr,
      accept1_eq_summarize h3, hb]
  · intro h1 h2 h3 h4
    obtain ⟨b, hb⟩ := @summarize1_filterRows_isSome s ez mp
      ⟨none, none, some sn⟩ zip y0 y1 "state" h4
    simp [handler1, hv, hc, he, accept1_eq_none h1, zip3Step1, hz,
      accept1_eq_none h2, geoStep1, hg, radiusStep1, hr, accept1_eq_none h3,
      stateStep1, hgs, hs, accept1_eq_summarize h4, hb]
  · intro h1 h2 h3 h4 h5
    obtain ⟨b, hb⟩ := @summarize1_filterRows_isSome n ez mp
      ⟨none, none, none⟩ zip y0 y1 "national" h5
    simp [handler1, hv, hc, he, accept1_eq_none h1, zip3Step1, hz,
      accept1_eq_none h2, geoStep1, hg, radiusStep1, hr, accept1_eq_none h3,
      stateStep1, hgs, hs, accept1_eq_none h4, national1, hn,
      accept1_eq_summarize h5, hb]
  · intro h1 h2 h3 h4 h5
    simp [handler1, hv, hc, he, accept1_eq_none h1, zip3Step1, hz,
      accept1_eq_none h2, geoStep1, hg, radiusStep1, hr, accept1_eq_none h3,
      stateStep1, hgs, hs, accept1_eq_none h4, national1, hn,
      accept1_eq_none h5]
  · intro b hb lvl hlvl
    rcases hae : accept1 e ez mp ⟨some zip, none, none⟩ zip y0 y1 "zip" with _ | be
    case some =>
      have hh : handler1 st zip cpt y0 y1 ez mp = .json (some be) := by
        simp [handler1, hv, hc, he, hae]
      rw [hh] at hb
      obtain rfl : be = b := by simpa using hb
      obtain ⟨hge, _, hsam, _⟩ := accept1_some_fields hae
      rw [hsam]
      exact hge
    case none =>
    rcases haz : accept1 z ez mp ⟨none, none, none⟩ zip y0 y1 "zip3" with _ | bz
    case some =>
      have hh : handler1 st zip cpt y0 y1 ez mp = .json (some bz) := by
        simp [handler1, hv, hc, he, hae, zip3Step1, hz, haz]
      rw [hh] at hb
      obtain rfl : bz = b := by simpa using hb
      obtain ⟨hge, _, hsam, _⟩ := accept1_some_fields haz
      rw [hsam]
      exact hge
    case none =>
    rcases har : accept1 r ez mp ⟨some zip, none, none⟩ zip y0 y1 "radius" with _ | br
    case some =>
      have hh : handler1 st zip cpt y0 y1 ez mp = .json (some br) := by
        simp [handler1, hv, hc, he, hae, zip3Step1, hz, haz, geoStep1, hg,
          radiusStep1, hr, har]
      rw [hh] at hb
      obtain rfl : br = b := by simpa using hb
      obtain ⟨hge, _, hsam, _⟩ := accept1_some_fields har
      rw [hsam]
      exact hge
    case none =>
    rcases has2 : accept1 s ez mp ⟨none, none, some sn⟩ zip y0 y1 "state" with _ | bs
    case some =>
      have hh : handler1 st zip cpt y0 y1 ez mp = .json (some bs) := by
        simp [handler1, hv, hc, he, hae, zip3Step1, hz, haz, geoStep1, hg,
          radiusStep1, hr, har, stateStep1, hgs, hs, has2]
      rw [hh] at hb
      obtain rfl : bs = b := by simpa using hb
      obtain ⟨hge, _, hsam, _⟩ := accept1_some_fields has2
      rw [hsam]
      exact hge
    case none =>
    rcases han : accept1 n ez mp ⟨none, none, none⟩ zip y0 y1 "national" with _ | bn
    case some =>
      have hh : handler1 st zip cpt y0 y1 ez mp = .json (some bn) := by
        simp [handler1, hv, hc, he, hae, zip3Step1, hz, haz, geoStep1, hg,
          radiusStep1, hr, har, stateStep1, hgs, hs, has2, national1, hn, han]
      rw [hh] at hb
      obtain rfl : bn = b := by simpa using hb
      obtain ⟨hge, _, hsam, _⟩ := accept1_some_fields han
      rw [hsam]
      exact hge
    case none =>
      have hh : handler1 st zip cpt y0 y1 ez mp = .json (some (noDataBody zip)) := by
        simp [handler1, hv, hc, he, hae, zip3Step1, hz, haz, geoStep1, hg,
          radiusStep1, hr, har, stateStep1, hgs, hs, has2, national1, hn, han]
      rw [hh] at hb
      obtain rfl : noDataBody zip = b := by simpa using hb
      simp [noDataBody] at hlvl

def c1wRows : List Row := List.replicate 12 ⟨some 50, some 2021⟩

def c1wStore : Store :=
  ⟨.ok c1wRows, .ok [], .ok (some ⟨some "CA"⟩), .ok [], .ok none, .ok [], .ok []⟩

/-- Witness for C1 at a concrete store whose exact scope passes the
post-filter gate. -/
theorem handler1_first_fit_w :
    handler1 c1wStore "90210" "12345" 2021 2025 false 0 =
      .json (summarize1 (filterRows c1wRows false 0) ⟨some "90210", none, none⟩
        "90210" 2021 2025 "zip") :=
  (handler1_first_fit (by with_unfolding_all rfl) (by with_unfolding_all rfl)
    rfl rfl rfl rfl rfl rfl rfl).1 (by with_unfolding_all decide)

/-- C6 (amended): in the cascade variants, the reported mean is the exact
rational average of the finite amounts, rounded once at the final display
step by JS `Math.round` — whose ties go to the integer above (toward
positive infinity), not half away from zero (see the counterexample); no
rounding is applied to intermediate values. -/
theorem summarize_mean_single_rounding {rows : List Row} {meta : ScopeMeta}
    {zip : String} {y0 y1 : ℤ} {level : String} :
    (∀ b, summarize0 rows meta zip y0 y1 level = some b →
      ∃ m, b.metrics = some m ∧
        m.mean = jsRound ((rows.filterMap Row.paid_amt).sum /
          ((rows.filterMap Row.paid_amt).length : ℚ))) ∧
    (∀ b, summarize1 rows meta zip y0 y1 level = some b →
      ∃ m, b.metrics = some m ∧
        m.mean = jsRound ((rows.filterMap Row.paid_amt).sum /
          ((rows.filterMap Row.paid_amt).length : ℚ))) ∧
    (∀ k : ℤ, jsRound ((k : ℚ) + 1/2) = k + 1) := by
  have hsum : ((rows.filterMap Row.paid_amt).insertionSort (· ≤ ·)).sum
      = (rows.filterMap Row.paid_amt).sum := (List.perm_insertionSort _ _).sum_eq
  have hlen : ((rows.filterMap Row.paid_amt).insertionSort (· ≤ ·)).length
      = (rows.filterMap Row.paid_amt).length := (List.perm_insertionSort _ _).length_eq
  refine ⟨?_, ?_, ?_⟩
  · intro b hb
    unfold summarize0 at hb
    dsimp only at hb
    split at hb
    · exact absurd hb (by simp)
    · obtain rfl : _ = b := Option.some_injective _ hb
      refine ⟨_, rfl, ?_⟩
      show dollars (((rows.filterMap Row.paid_amt).insertionSort (· ≤ ·)).sum /
        (((rows.filterMap Row.paid_amt).insertionSort (· ≤ ·)).length : ℚ)) = _
      rw [hsum, hlen]
      rfl
  · intro b hb
    unfold summarize1 at hb
    dsimp only at hb
    split at hb
    · exact absurd hb (by simp)
    · obtain rfl : _ = b := Option.some_injective _ hb
      refine ⟨_, rfl, ?_⟩
      show dollars (((rows.filterMap Row.paid_amt).insertionSort (· ≤ ·)).sum /
        (((rows.filterMap Row.paid_amt).insertionSort (· ≤ ·)).length : ℚ)) = _
      rw [hsum, hlen]
      rfl
  · intro k
    unfold jsRound
    have hk : (k : ℚ) + 1/2 + 1/2 = ((k + 1 : ℤ) : ℚ) := by push_cast; ring
    rw [hk, Int.floor_intCast]

/-- Witness for C6 on two concrete rows (mean of 3 and 8 is 5.5, reported
as 6). -/
theorem summarize_mean_single_rounding_w :
    ∃ m, (⟨"90210", ⟨some "zip", 2, ⟨none, none, none⟩⟩,
        some ⟨(2021, 2025), 6, 8, 3, 8, [⟨2021, 8⟩]⟩⟩ : Body).metrics = some m ∧
      m.mean = jsRound ((([⟨some 3, some 2021⟩, ⟨some 8, some 2021⟩] :
          List Row).filterMap Row.paid_amt).sum /
        ((([⟨some 3, some 2021⟩, ⟨some 8, some 2021⟩] :
          List Row).filterMap Row.paid_amt).length : ℚ)) :=
  (@summarize_mean_single_rounding [⟨some 3, some 2021⟩, ⟨some 8, some 2021⟩]
    ⟨none, none, none⟩ "90210" 2021 2025 "zip").1 _ (by with_unfolding_all rfl)

def c6Rows : List Row :=
  ⟨some (-6), some 2021⟩ :: List.replicate 11 ⟨some 0, some 2021⟩

def c6Store : Store :=
  ⟨.ok c6Rows, .ok [], .ok none, .ok [], .ok none, .ok [], .ok []⟩

/-- C6 counterexample: an accepted sample whose exact average is `-1/2`
is reported as mean `0` (JS `Math.round` ties go toward positive
infinity), while rounding half away from zero would give `-1`. -/
theorem mean_tie_rounded_up_cex :
    (c6Rows.filterMap Row.paid_amt).sum /
        ((c6Rows.filterMap Row.paid_amt).length : ℚ) = -(1/2) ∧
    respMean (handler0 c6Store "90210" "12345" 2021 2025) = some 0 ∧
    specRoundHalfAwayFromZero (-(1/2)) = -1 ∧ ((0 : ℤ) ≠ -1) := by
  with_unfolding_all decide

/-- C2 counterexample: the unfiltered cascade's median of the two-element
sample `[0, 10]` is the upper element `10`, while the interpolated
percentile at `p = 1/2` is `5` (and `5` is stable under the display
rounding), so the median used there is not the linear-interpolation
percentile. -/
theorem nearest_rank_median_cex :
    respMedian (Resp.json (summarize0 [⟨some 0, some 2021⟩, ⟨some 10, some 2021⟩]
        ⟨none, none, none⟩ "90210" 2021 2025 "zip")) = some 10 ∧
    interpPercentile [0, 10] (1/2) = 5 ∧ jsRound 5 = 5 ∧ ((10 : ℤ) ≠ 5) := by
  with_unfolding_all decide

def c5Rows : List Row :=
  [⟨some 0, some 2021⟩, ⟨some 10, some 2021⟩] ++
    List.replicate 10 ⟨some 5, some 2022⟩

def c5Store : Store :=
  ⟨.ok c5Rows, .ok [], .ok none, .ok [], .ok none, .ok [], .ok []⟩

/-- C5 counterexample: on an accepted row set of the unfiltered cascade,
the 2021 trend entry's median is `10` (the upper median of `[0, 10]`),
while `percentile([0, 10], 0.5)` is `5`, so the per-year trend median of
this variant is not the interpolated median. -/
theorem trend_median_not_interpolated_cex :
    respTrend (handler0 c5Store "90210" "12345" 2021 2025) =
      some [⟨2021, 10⟩, ⟨2022, 5⟩] ∧
    pct [0, 10] (1/2) = some 5 ∧ jsRound 5 = 5 ∧ ((10 : ℤ) ≠ 5) := by
  with_unfolding_all decide

/-- C4: in both cascade variants, when the query location is absent from
the geo index the radius and state scopes are skipped entirely (the
radius, nearest and state query results are left unconstrained by the
hypotheses, so the outcome cannot depend on them) and resolution proceeds
directly to national after exact and zip3 fail; if national is also under
`MIN_N`, the response is the no-data body with level null, sample size 0
and metrics null. -/
theorem handler_geo_missing_skips_to_national {st : Store} {zip cpt : String}
    {y0 y1 : ℤ} {ez : Bool} {mp : ℚ} {e z n : List Row}
    (hv : validZip zip = true) (hc : validCpt cpt = true)
    (he : st.exactQ = .ok e) (hz : st.zip3Q = .ok z)
    (hg : st.geoQ = .ok none) (hnat : st.nationalQ = .ok n) :
    (e.length < MIN_N → z.length < MIN_N → n.length < MIN_N →
      handler0 st zip cpt y0 y1 = .json (some (noDataBody zip))) ∧
    (e.length < MIN_N → z.length < MIN_N → MIN_N ≤ n.length →
      handler0 st zip cpt y0 y1 =
        .json (summarize0 n ⟨none, none, none⟩ zip y0 y1 "national")) ∧
    ((filterRows e ez mp).length < MIN_N → (filterRows z ez mp).length < MIN_N →
      (filterRows n ez mp).length < MIN_N →
      handler1 st zip cpt y0 y1 ez mp = .json (some (noDataBody zip))) ∧
    ((filterRows e ez mp).length < MIN_N → (filterRows z ez mp).length < MIN_N →
      MIN_N ≤ (filterRows n ez mp).length →
      handler1 st zip cpt y0 y1 ez mp =
        .json (summarize1 (filterRows n ez mp) ⟨none, none, none⟩ zip y0 y1
          "national")) := by
  refine ⟨?_, ?_, ?_, ?_⟩
  · intro h1 h2 h3
    simp [handler0, hv, hc, he, show ¬ MIN_N ≤ e.length from not_le.mpr h1,
      zip3Step0, hz, show ¬ MIN_N ≤ z.length from not_le.mpr h2,
      geoStep0, hg, radiusStep0, stateStep0, national0, hnat,
      show ¬ MIN_N ≤ n.length from not_le.mpr h3]
  · intro h1 h2 h3
    simp [handler0, hv, hc, he, show ¬ MIN_N ≤ e.length from not_le.mpr h1,
      zip3Step0, hz, show ¬ MIN_N ≤ z.length from not_le.mpr h2,
      geoStep0, hg, radiusStep0, stateStep0, national0, hnat, h3]
  · intro h1 h2 h3
    simp [handler1, hv, hc, he, accept1_eq_none h1, zip3Step1, hz,
      accept1_eq_none h2, geoStep1, hg, radiusStep1, stateStep1, national1,
      hnat, accept1_eq_none h3]
  · intro h1 h2 h3
    obtain ⟨b, hb⟩ := @summarize1_filterRows_isSome n ez mp ⟨none, none, none⟩
      zip y0 y1 "national" h3
    simp [handler1, hv, hc, he, accept1_eq_none h1, zip3Step1, hz,
      accept1_eq_none h2, geoStep1, hg, radiusStep1, stateStep1, national1,
      hnat, accept1_eq_summarize h3, hb]

def c4Store : Store :=
  ⟨.ok [], .ok [], .ok none, .error "radius never queried", .ok none,
    .error "state never queried", .ok []⟩

/-- Witness for C4: the geo lookup finds nothing, radius and state would
even fail if queried, yet the outcome is the no-data body computed from
national alone. -/
theorem handler_geo_missing_skips_to_national_w :
    handler0 c4Store "90210" "12345" 2021 2025 =
      .json (some (noDataBody "90210")) :=
  (@handler_geo_missing_skips_to_national c4Store "90210" "12345" 2021 2025
    false 0 [] [] [] (by with_unfolding_all rfl) (by with_unfolding_all rfl)
    rfl rfl rfl rfl).1 (by with_unfolding_all decide)
    (by with_unfolding_all decide) (by with_unfolding_all decide)

/-! Step lemmas used for the error-distinctness claim: the cascade
handlers respond `serverError` exactly when some executed query failed,
and the no-data success can only arise from successfully executed
queries. -/

theorem national0_noData_ok {st : Store} {zip : String} {y0 y1 : ℤ}
    (h : national0 st zip y0 y1 = .json (some (noDataBody zip))) :
    ∃ n, st.nationalQ = .ok n := by
  cases hq : st.nationalQ with
  | error m => rw [national0, hq] at h; simp at h
  | ok rows => exact ⟨rows, rfl⟩

theorem national0_err {st : Store} {zip : String} {y0 y1 : ℤ}
    (h : national0 st zip y0 y1 = .serverError) :
    ∃ m, st.nationalQ = .error m := by
  cases hq : st.nationalQ with
  | error m => exact ⟨m, rfl⟩
  | ok rows =>
    exfalso
    rw [national0, hq] at h
    dsimp only at h
    split at h <;> simp at h

theorem stateStep0_noData {st : Store} {qgeo : Option Geo} {zip : String}
    {y0 y1 : ℤ}
    (h : stateStep0 st qgeo zip y0 y1 = .json (some (noDataBody zip))) :
    ∃ n, st.nationalQ = .ok n := by
  cases qgeo with
  | none => exact national0_noData_ok (by rw [stateStep0] at h; exact h)
  | some g =>
    rw [stateStep0] at h
    cases hgs : g.state with
    | none => rw [hgs] at h; exact national0_noData_ok h
    | some sName =>
      rw [hgs] at h
      dsimp only at h
      cases hsq : st.stateQ with
      | error m => rw [hsq] at h; simp at h
      | ok rows =>
        rw [hsq] at h
        dsimp only at h
        split at h
        case isTrue => exact absurd (by simpa using h) summarize0_ne_noData
        case isFalse => exact national0_noData_ok h

theorem stateStep0_err {st : Store} {qgeo : Option Geo} {zip : String}
    {y0 y1 : ℤ}
    (h : stateStep0 st qgeo zip y0 y1 = .serverError) :
    (∃ m, st.stateQ = .error m) ∨ (∃ m, st.nationalQ = .error m) := by
  cases qgeo with
  | none => exact Or.inr (national0_err (by rw [stateStep0] at h; exact h))
  | some g =>
    rw [stateStep0] at h
    cases hgs : g.state with
    | none => rw [hgs] at h; exact Or.inr (national0_err h)
    | some sName =>
      rw [hgs] at h
      dsimp only at h
      cases hsq : st.stateQ with
      | error m => exact Or.inl ⟨m, rfl⟩
      | ok rows =>
        rw [hsq] at h
        dsimp only at h
        split at h
        case isTrue => simp at h
        case isFalse => exact Or.inr (national0_err h)

theorem radiusStep0_noData {st : Store} {qgeo : Option Geo} {zip : String}
    {y0 y1 : ℤ}
    (h : radiusStep0 st qgeo zip y0 y1 = .json (some (noDataBody zip))) :
    ∃ n, st.nationalQ = .ok n := by
  cases qgeo with
  | none => exact stateStep0_noData (by rw [radiusStep0] at h; exact h)
  | some g =>
    rw [radiusStep0] at h
    cases hq : st.radiusQ with
    | error m => rw [hq] at h; simp at h
    | ok rows =>
      rw [hq] at h
      dsimp only at h
      split at h
      case isTrue =>
        cases hnq : st.nearestQ with
        | error m => rw [hnq] at h; simp at h
        | ok nr =>
          rw [hnq] at h
          exact absurd (by simpa using h) summarize0_ne_noData
      case isFalse => exact stateStep0_noData h

theorem radiusStep0_err {st : Store} {qgeo : Option Geo} {zip : String}
    {y0 y1 : ℤ}
    (h : radiusStep0 st qgeo zip y0 y1 = .serverError) :
    (∃ m, st.radiusQ = .error m) ∨ (∃ m, st.nearestQ = .error m) ∨
    (∃ m, st.stateQ = .error m) ∨ (∃ m, st.nationalQ = .error m) := by
  cases qgeo with
  | none =>
    rcases stateStep0_err (by rw [radiusStep0] at h; exact h) with h1 | h1
    · exact Or.inr (Or.inr (Or.inl h1))
    · exact Or.inr (Or.inr (Or.inr h1))
  | some g =>
    rw [radiusStep0] at h
    cases hq : st.radiusQ with
    | error m => exact Or.inl ⟨m, rfl⟩
    | ok rows =>
      rw [hq] at h
      dsimp only at h
      split at h
      case isTrue =>
        cases hnq : st.nearestQ with
        | error m => exact Or.inr (Or.inl ⟨m, rfl⟩)
        | ok nr => rw [hnq] at h; simp at h
      case isFalse =>
        rcases stateStep0_err h with h1 | h1
        · exact Or.inr (Or.inr (Or.inl h1))
        · exact Or.inr (Or.inr (Or.inr h1))

theorem geoStep0_noData {st : Store} {zip : String} {y0 y1 : ℤ}
    (h : geoStep0 st zip y0 y1 = .json (some (noDataBody zip))) :
    (∃ geo, st.geoQ = .ok geo) ∧ ∃ n, st.nationalQ = .ok n := by
  cases hq : st.geoQ with
  | error m => rw [geoStep0, hq] at h; simp at h
  | ok qgeo =>
    rw [geoStep0, hq] at h
    exact ⟨⟨qgeo, rfl⟩, radiusStep0_noData h⟩

theorem geoStep0_err {st : Store} {zip : String} {y0 y1 : ℤ}
    (h : geoStep0 st zip y0 y1 = .serverError) :
    (∃ m, st.geoQ = .error m) ∨ (∃ m, st.radiusQ = .error m) ∨
    (∃ m, st.nearestQ = .error m) ∨ (∃ m, st.stateQ = .error m) ∨
    (∃ m, st.nationalQ = .error m) := by
  cases hq : st.geoQ with
  | error m => exact Or.inl ⟨m, rfl⟩
  | ok qgeo =>
    rw [geoStep0, hq] at h
    exact Or.inr (radiusStep0_err h)

theorem accept1_ne_noData {rows : List Row} {ez : Bool} {mp : ℚ} {meta : ScopeMeta}
    {zip zip2 : String} {y0 y1 : ℤ} {level : String} :
    accept1 rows ez mp meta zip y0 y1 level ≠ some (noDataBody zip2) := by
  intro h
  have := (accept1_some_fields h).2.1
  simp [noDataBody] at this

theorem national1_noData_ok {st : Store} {zip : String} {y0 y1 : ℤ} {ez : Bool}
    {mp : ℚ}
    (h : national1 st zip y0 y1 ez mp = .json (some (noDataBody zip))) :
    ∃ n, st.nationalQ = .ok n := by
  cases hq : st.nationalQ with
  | error m => rw [national1, hq] at h; simp at h
  | ok rows => exact ⟨rows, rfl⟩

theorem national1_err {st : Store} {zip : String} {y0 y1 : ℤ} {ez : Bool} {mp : ℚ}
    (h : national1 st zip y0 y1 ez mp = .serverError) :
    ∃ m, st.nationalQ = .error m := by
  cases hq : st.nationalQ with
  | error m => exact ⟨m, rfl⟩
  | ok rows =>
    exfalso
    rw [national1, hq] at h
    dsimp only at h
    split at h <;> simp at h

theorem stateStep1_noData {st : Store} {qgeo : Option Geo} {zip : String}
    {y0 y1 : ℤ} {ez : Bool} {mp : ℚ}
    (h : stateStep1 st qgeo zip y0 y1 ez mp = .json (some (noDataBody zip))) :
    ∃ n, st.nationalQ = .ok n := by
  cases qgeo with
  | none => exact national1_noData_ok (by rw [stateStep1] at h; exact h)
  | some g =>
    rw [stateStep1] at h
    cases hgs : g.state with
    | none => rw [hgs] at h; exact national1_noData_ok h
    | some sName =>
      rw [hgs] at h
      dsimp only at h
      cases hsq : st.stateQ with
      | error m => rw [hsq] at h; simp at h
      | ok rows =>
        rw [hsq] at h
        dsimp only at h
        split at h
        next b heq => exact absurd (heq.trans (by simpa using h)) accept1_ne_noData
        next => exact national1_noData_ok h

theorem stateStep1_err {st : Store} {qgeo : Option Geo} {zip : String}
    {y0 y1 : ℤ} {ez : Bool} {mp : ℚ}
    (h : stateStep1 st qgeo zip y0 y1 ez mp = .serverError) :
    (∃ m, st.stateQ = .error m) ∨ (∃ m, st.nationalQ = .error m) := by
  cases qgeo with
  | none => exact Or.inr (national1_err (by rw [stateStep1] at h; exact h))
  | some g =>
    rw [stateStep1] at h
    cases hgs : g.state with
    | none => rw [hgs] at h; exact Or.inr (national1_err h)
    | some sName =>
      rw [hgs] at h
      dsimp only at h
      cases hsq : st.stateQ with
      | error m => exact Or.inl ⟨m, rfl⟩
      | ok rows =>
        rw [hsq] at h
        dsimp only at h
        split at h
        next b heq => simp at h
        next => exact Or.inr (national1_err h)

theorem radiusStep1_noData {st : Store} {qgeo : Option Geo} {zip : String}
    {y0 y1 : ℤ} {ez : Bool} {mp : ℚ}
    (h : radiusStep1 st qgeo zip y0 y1 ez mp = .json (some (noDataBody zip))) :
    ∃ n, st.nationalQ = .ok n := by
  cases qgeo with
  | none => exact stateStep1_noData (by rw [radiusStep1] at h; exact h)
  | some g =>
    rw [radiusStep1] at h
    cases hq : st.radiusQ with
    | error m => rw [hq] at h; simp at h
    | ok rows =>
      rw [hq] at h
      dsimp only at h
      split at h
      next b heq => exact absurd (heq.trans (by simpa using h)) accept1_ne_noData
      next => exact stateStep1_noData h

theorem radiusStep1_err {st : Store} {qgeo : Option Geo} {zip : String}
    {y0 y1 : ℤ} {ez : Bool} {mp : ℚ}
    (h : radiusStep1 st qgeo zip y0 y1 ez mp = .serverError) :
    (∃ m, st.radiusQ = .error m) ∨ (∃ m, st.stateQ = .error m) ∨
    (∃ m, st.nationalQ = .error m) := by
  cases qgeo with
  | none =>
    rcases stateStep1_err (by rw [radiusStep1] at h; exact h) with h1 | h1
    · exact Or.inr (Or.inl h1)
    · exact Or.inr (Or.inr h1)
  | some g =>
    rw [radiusStep1] at h
    cases hq : st.radiusQ with
    | error m => exact Or.inl ⟨m, rfl⟩
    | ok rows =>
      rw [hq] at h
      dsimp only at h
      split at h
      next b heq => simp at h
      next =>
        rcases stateStep1_err h with h1 | h1
        · exact Or.inr (Or.inl h1)
        · exact Or.inr (Or.inr h1)

theorem geoStep1_noData {st : Store} {zip : String} {y0 y1 : ℤ} {ez : Bool}
    {mp : ℚ}
    (h : geoStep1 st zip y0 y1 ez mp = .json (some (noDataBody zip))) :
    (∃ geo, st.geoQ = .ok geo) ∧ ∃ n, st.nationalQ = .ok n := by
  cases hq : st.geoQ with
  | error m => rw [geoStep1, hq] at h; simp at h
  | ok qgeo =>
    rw [geoStep1, hq] at h
    exact ⟨⟨qgeo, rfl⟩, radiusStep1_noData h⟩

theorem geoStep1_err {st : Store} {zip : String} {y0 y1 : ℤ} {ez : Bool} {mp : ℚ}
    (h : geoStep1 st zip y0 y1 ez mp = .serverError) :
    (∃ m, st.geoQ = .error m) ∨ (∃ m, st.radiusQ = .error m) ∨
    (∃ m, st.stateQ = .error m) ∨ (∃ m, st.nationalQ = .error m) := by
  cases hq : st.geoQ with
  | error m => exact Or.inl ⟨m, rfl⟩
  | ok qgeo =>
    rw [geoStep1, hq] at h
    exact Or.inr (radiusStep1_err h)

/-- C3 (amended): in the pg cascade variants, a data-store failure is
surfaced as the distinct server-error outcome and never as a zero-row
scope: a failing exact query yields `serverError` in both variants; the
insufficient-sample no-data success can only arise when every query on
the executed path succeeded; and `serverError` only arises from a failed
query.  (The paginated variant violates the original claim — its scope
loop skips a failing scope exactly like an empty one; see the
counterexample.) -/
theorem cascade_error_distinct {st : Store} {zip cpt : String} {y0 y1 : ℤ}
    {ez : Bool} {mp : ℚ}
    (hv : validZip zip = true) (hc : validCpt cpt = true) :
    (∀ m, st.exactQ = .error m → handler0 st zip cpt y0 y1 = .serverError ∧
      handler1 st zip cpt y0 y1 ez mp = .serverError) ∧
    (handler0 st zip cpt y0 y1 = .json (some (noDataBody zip)) →
      (∃ e, st.exactQ = .ok e) ∧ (∃ z, st.zip3Q = .ok z) ∧
      (∃ geo, st.geoQ = .ok geo) ∧ (∃ n, st.nationalQ = .ok n)) ∧
    (handler0 st zip cpt y0 y1 = .serverError →
      (∃ m, st.exactQ = .error m) ∨ (∃ m, st.zip3Q = .error m) ∨
      (∃ m, st.geoQ = .error m) ∨ (∃ m, st.radiusQ = .error m) ∨
      (∃ m, st.nearestQ = .error m) ∨ (∃ m, st.stateQ = .error m) ∨
      (∃ m, st.nationalQ = .error m)) ∧
    (handler1 st zip cpt y0 y1 ez mp = .json (some (noDataBody zip)) →
      (∃ e, st.exactQ = .ok e) ∧ (∃ z, st.zip3Q = .ok z) ∧
      (∃ geo, st.geoQ = .ok geo) ∧ (∃ n, st.nationalQ = .ok n)) ∧
    (handler1 st zip cpt y0 y1 ez mp = .serverError →
      (∃ m, st.exactQ = .error m) ∨ (∃ m, st.zip3Q = .error m) ∨
      (∃ m, st.geoQ = .error m) ∨ (∃ m, st.radiusQ = .error m) ∨
      (∃ m, st.stateQ = .error m) ∨ (∃ m, st.nationalQ = .error m)) := by
  refine ⟨?_, ?_, ?_, ?_, ?_⟩
  · intro m he
    constructor
    · simp [handler0, hv, hc, he]
    · simp [handler1, hv, hc, he]
  · intro h
    cases he : st.exactQ with
    | error m =>
      rw [show handler0 st zip cpt y0 y1 = .serverError from by
        simp [handler0, hv, hc, he]] at h
      simp at h
    | ok e =>
      simp only [handler0, hv, hc, he, Bool.and_self, if_true] at h
      split at h
      next => exact absurd (by simpa using h) summarize0_ne_noData
      next =>
        cases hz : st.zip3Q with
        | error m => rw [zip3Step0, hz] at h; simp at h
        | ok z =>
          rw [zip3Step0, hz] at h
          dsimp only at h
          split at h
          next => exact absurd (by simpa using h) summarize0_ne_noData
          next =>
            obtain ⟨hgeo, hnat⟩ := geoStep0_noData h
            exact ⟨⟨e, rfl⟩, ⟨z, rfl⟩, hgeo, hnat⟩
  · intro h
    cases he : st.exactQ with
    | error m => exact Or.inl ⟨m, rfl⟩
    | ok e =>
      simp only [handler0, hv, hc, he, Bool.and_self, if_true] at h
      split at h
      next => simp at h
      next =>
        cases hz : st.zip3Q with
        | error m => exact Or.inr (Or.inl ⟨m, rfl⟩)
        | ok z =>
          rw [zip3Step0, hz] at h
          dsimp only at h
          split at h
          next => simp at h
          next => exact Or.inr (Or.inr (geoStep0_err h))
  · intro h
    cases he : st.exactQ with
    | error m =>
      rw [show handler1 st zip cpt y0 y1 ez mp = .serverError from by
        simp [handler1, hv, hc, he]] at h
      simp at h
    | ok e =>
      simp only [handler1, hv, hc, he, Bool.and_self, if_true] at h
      split at h
      next b heq => exact absurd (heq.trans (by simpa using h)) accept1_ne_noData
      next =>
        cases hz : st.zip3Q with
        | error m => rw [zip3Step1, hz] at h; simp at h
        | ok z =>
          rw [zip3Step1, hz] at h
          dsimp only at h
          split at h
          next b heq =>
            exact absurd (heq.trans (by simpa using h)) accept1_ne_noData
          next =>
            obtain ⟨hgeo, hnat⟩ := geoStep1_noData h
            exact ⟨⟨e, rfl⟩, ⟨z, rfl⟩, hgeo, hnat⟩
  · intro h
    cases he : st.exactQ with
    | error m => exact Or.inl ⟨m, rfl⟩
    | ok e =>
      simp only [handler1, hv, hc, he, Bool.and_self, if_true] at h
      split at h
      next b heq => simp at h
      next =>
        cases hz : st.zip3Q with
        | error m => exact Or.inr (Or.inl ⟨m, rfl⟩)
        | ok z =>
          rw [zip3Step1, hz] at h
          dsimp only at h
          split at h
          next b heq => simp at h
          next => exact Or.inr (Or.inr (geoStep1_err h))

def c3Store : Store :=
  ⟨.error "pool connection refused", .ok [], .ok none, .ok [], .ok none,
    .ok [], .ok []⟩

/-- Witness for C3 at a concrete store whose exact query fails: both
cascade handlers answer with the server-error outcome. -/
theorem cascade_error_distinct_w :
    handler0 c3Store "90210" "12345" 2021 2025 = .serverError ∧
    handler1 c3Store "90210" "12345" 2021 2025 false 0 = .serverError :=
  (@cascade_error_distinct c3Store "90210" "12345" 2021 2025 false 0
    (by with_unfolding_all rfl) (by with_unfolding_all rfl)).1
    "pool connection refused" rfl

/-- C3 counterexample: in the paginated variant, a request whose zip5
scope query fails produces exactly the same ordinary 200 response as a
request whose zip5 scope returned zero rows — the store failure is
conflated with the empty scope instead of being surfaced as a distinct
error outcome. -/
theorem handlerV_conflates_error_and_empty_cex :
    handlerV [("zip5", Except.error "connection refused"),
              ("national", Except.ok ([] : List ℚ))] =
      handlerV [("zip5", Except.ok ([] : List ℚ)), ("national", Except.ok [])] ∧
    handlerV [("zip5", Except.error "connection refused"),
              ("national", Except.ok ([] : List ℚ))] =
      ⟨none, []⟩ := by
  constructor <;> rfl

/-- C8 (amended): at the radius scope, the unfiltered cascade reports as
representative location the zip of the first row of the nearest-1
haversine query and that row's distance in miles when it is nonzero (the
JS `|| null` maps a zero distance and a missing row to null, `|| zip`
maps a missing row and an empty zip to the query zip); the filtered
cascade instead reports the query zip itself as representative and no
distance at all, independent of the nearest location (see the
counterexample). -/
theorem radius_representative_and_distance {st : Store} {zip cpt : String}
    {y0 y1 : ℤ} {ez : Bool} {mp : ℚ} {e z r : List Row} {g : Geo}
    (hv : validZip zip = true) (hc : validCpt cpt = true)
    (he : st.exactQ = .ok e) (hz : st.zip3Q = .ok z)
    (hg : st.geoQ = .ok (some g)) (hr : st.radiusQ = .ok r) :
    (∀ nr, st.nearestQ = .ok nr → e.length < MIN_N → z.length < MIN_N →
      MIN_N ≤ r.length →
      handler0 st zip cpt y0 y1 =
        .json (summarize0 r (radiusMeta0 zip nr) zip y0 y1 "radius")) ∧
    (∀ x : NearRow, x.zip5 ≠ "" → x.dist_mi ≠ 0 →
      radiusMeta0 zip (some x) = ⟨some x.zip5, some (some x.dist_mi), none⟩) ∧
    ((filterRows e ez mp).length < MIN_N → (filterRows z ez mp).length < MIN_N →
      MIN_N ≤ (filterRows r ez mp).length →
      ∃ b, handler1 st zip cpt y0 y1 ez mp = .json (some b) ∧
        b.used_scope.level = some "radius" ∧
        b.used_scope.meta.representative_zip = some zip ∧
        b.used_scope.meta.distance_miles = none) := by
  refine ⟨?_, ?_, ?_⟩
  · intro nr hnr h1 h2 h3
    simp [handler0, hv, hc, he, show ¬ MIN_N ≤ e.length from not_le.mpr h1,
      zip3Step0, hz, show ¬ MIN_N ≤ z.length from not_le.mpr h2,
      geoStep0, hg, radiusStep0, hr, h3, hnr]
  · intro x hx1 hx2
    simp [radiusMeta0, hx1, hx2]
  · intro h1 h2 h3
    obtain ⟨b, hb⟩ := @summarize1_filterRows_isSome r ez mp
      ⟨some zip, none, none⟩ zip y0 y1 "radius" h3
    refine ⟨b, ?_, ?_, ?_, ?_⟩
    · simp [handler1, hv, hc, he, accept1_eq_none h1, zip3Step1, hz,
        accept1_eq_none h2, geoStep1, hg, radiusStep1, hr,
        accept1_eq_summarize h3, hb]
    · exact (summarize1_fields hb).1
    · rw [(summarize1_fields hb).2.2]
    · rw [(summarize1_fields hb).2.2]

def c8wStore : Store :=
  ⟨.ok [], .ok [], .ok (some ⟨some "CA"⟩),
    .ok (List.replicate 12 ⟨some 10, some 2021⟩), .ok (some ⟨"90211", 3⟩),
    .ok [], .ok []⟩

/-- Witness for C8: the unfiltered cascade resolved at radius reports the
nearest-1 row's zip and distance. -/
theorem radius_representative_and_distance_w :
    handler0 c8wStore "90210" "12345" 2021 2025 =
      .json (summarize0 (List.replicate 12 ⟨some 10, some 2021⟩)
        (radiusMeta0 "90210" (some ⟨"90211", 3⟩)) "90210" 2021 2025 "radius") :=
  (@radius_representative_and_distance c8wStore "90210" "12345" 2021 2025
    false 0 [] [] (List.replicate 12 ⟨some 10, some 2021⟩) ⟨some "CA"⟩
    (by with_unfolding_all rfl) (by with_unfolding_all rfl) rfl rfl rfl rfl).1
    (some ⟨"90211", 3⟩) rfl (by with_unfolding_all decide)
    (by with_unfolding_all decide) (by with_unfolding_all decide)

def c8Store : Store :=
  ⟨.ok [], .ok [], .ok (some ⟨some "CA"⟩),
    .ok (List.replicate 12 ⟨some 10, some 2021⟩), .ok (some ⟨"90211", 3⟩),
    .ok [], .ok []⟩

/-- C8 counterexample: the filtered cascade resolved at the radius scope
reports the query zip `90210` as representative (although the nearest-1
location is `90211`) and reports no distance key at all — contradicting
the claim that every radius resolution reports the nearest location and
its distance in miles. -/
theorem handler1_radius_no_distance_cex :
    respLevel (handler1 c8Store "90210" "12345" 2021 2025 false 0) =
      some (some "radius") ∧
    respRep (handler1 c8Store "90210" "12345" 2021 2025 false 0) =
      some (some "90210") ∧
    respDistance (handler1 c8Store "90210" "12345" 2021 2025 false 0) =
      some none := by
  with_unfolding_all decide

end CapClaims
